import Mathlib

/-!
Verification of the workflow-service layer of the genpor repository
(src/myapp/services.py): a shallow embedding in Lean 4 of the functions
`check_gpu_load`, `get_active_comfyui_address`, `update_workflow`,
`find_dependencies`, `map_workflow_stages`, and the event-stream /
artifact-collection tail of `generate_image_from_character`, together
with theorems settling the specification claims about them.

The embedding covers the API workflow format (a JSON object mapping node
ids to node objects); this is the format the source's `is_api_format`
branches handle and the format all claims are about.  Network and
database effects are modelled as explicit input data (probe outcomes,
event lists, history manifests, fetch functions).
-/

namespace GenPor

/-- A scalar Python value occurring in ComfyUI workflow JSON. -/
inductive PyScal where
  | none
  | bool (b : Bool)
  | int (n : Int)
  | float (q : Rat)
  | str (s : String)
deriving DecidableEq, Repr

/-- A Python value occurring in ComfyUI workflow JSON: a scalar or a
list of scalars.  Workflow "Reference" edges are the two-element lists
`[source_node_id, slot]`; the lists appearing in these workflows
(references, widget rows) hold scalars, so list elements are modelled
as scalars. -/
inductive PyVal where
  | none
  | bool (b : Bool)
  | int (n : Int)
  | float (q : Rat)
  | str (s : String)
  | list (xs : List PyScal)
deriving DecidableEq, Repr

/-- A Python dict with string keys, modelled as an association list in
insertion order (Python 3 dicts preserve insertion order). -/
abbrev Dict (α : Type) := List (String × α)

/-- Dict lookup: `d.get(k)` / `d[k]` (first binding wins; real dicts
have unique keys). -/
def dictGet {α : Type} : Dict α → String → Option α
  | [], _ => Option.none
  | (k', v) :: rest, k => if k' = k then some v else dictGet rest k

/-- Dict key-membership test: Python `k in d`. -/
def dictHas {α : Type} (d : Dict α) (k : String) : Bool :=
  (dictGet d k).isSome

/-- Dict assignment `d[k] = v`: replaces the value at an existing key in
place, otherwise appends the new binding at the end (Python dict update
semantics). -/
def dictSet {α : Type} : Dict α → String → α → Dict α
  | [], k, v => [(k, v)]
  | (k', v') :: rest, k, v =>
      if k' = k then (k, v) :: rest else (k', v') :: dictSet rest k v

theorem dictGet_dictSet_self {α : Type} (d : Dict α) (k : String) (v : α) :
    dictGet (dictSet d k v) k = some v := by
  induction d with
  | nil => simp [dictSet, dictGet]
  | cons p rest ih =>
      obtain ⟨k', v'⟩ := p
      by_cases h : k' = k
      · simp [dictSet, dictGet, h]
      · simp [dictSet, dictGet, h, ih]

theorem dictGet_dictSet_ne {α : Type} (d : Dict α) {k k' : String} (v : α)
    (h : k' ≠ k) : dictGet (dictSet d k' v) k = dictGet d k := by
  induction d with
  | nil => simp [dictSet, dictGet, h]
  | cons p rest ih =>
      obtain ⟨k0, v0⟩ := p
      by_cases h0 : k0 = k'
      · subst h0
        simp [dictSet, dictGet, h]
      · by_cases h1 : k0 = k
        · subst h1
          have h2 : ¬(k0 = k') := h0
          simp [dictSet, dictGet, h2]
        · simp [dictSet, dictGet, h0, h1, ih]

/-- Python substring test `needle in hay` on strings. -/
def pyIn (needle hay : String) : Bool :=
  decide (needle.toList <:+: hay.toList)

/-- ASCII-faithful lowercase (Python .lower() on the ASCII titles and
class names these workflows use), written over the character list so
that it evaluates by kernel reduction. -/
def strLower (s : String) : String := String.mk (s.data.map Char.toLower)

/-- ASCII-faithful uppercase (Python .upper()), likewise. -/
def strUpper (s : String) : String := String.mk (s.data.map Char.toUpper)

/-- Whitespace strip on both ends (Python str.strip() before numeric
parsing). -/
def trimChars (cs : List Char) : List Char :=
  ((cs.dropWhile Char.isWhitespace).reverse.dropWhile Char.isWhitespace).reverse

/-- Python truthiness of a value (`if x:`). -/
def pyTruthy : PyVal → Bool
  | .none => false
  | .bool b => b
  | .int n => n != 0
  | .float q => q != 0
  | .str s => s != ""
  | .list xs => !xs.isEmpty

/-- Python `str()` of a scalar, as used on reference sources
(`str(value[0])`).  Faithful on the strings, ints and booleans that
occur as reference sources; the decimal rendering of non-integral
floats is approximated (no claim depends on that case). -/
def pyStrS : PyScal → String
  | .str s => s
  | .int n => toString n
  | .bool b => if b then "True" else "False"
  | .none => "None"
  | .float q => if q.den = 1 then toString q.num ++ ".0" else toString q.num ++ "/" ++ toString q.den

/-- Python `str()` of a value (list rendering approximated; no claim
depends on it). -/
def pyStr : PyVal → String
  | .str s => s
  | .int n => toString n
  | .bool b => if b then "True" else "False"
  | .none => "None"
  | .float q => if q.den = 1 then toString q.num ++ ".0" else toString q.num ++ "/" ++ toString q.den
  | .list _ => "[...]"

/-- All decimal digits, nonempty. -/
def allDigits (cs : List Char) : Bool :=
  !cs.isEmpty && cs.all Char.isDigit

/-- Numeric value of a digit string. -/
def natOfDigits (cs : List Char) : Nat :=
  cs.foldl (fun a c => 10 * a + (c.toNat - '0'.toNat)) 0

/-- Parse an optionally signed run of digits (the integer-literal core
of Python's `int()` on strings, after stripping surrounding
whitespace). -/
def parseSignedInt : List Char → Option Int
  | '-' :: rest => if allDigits rest then some (-(natOfDigits rest : Int)) else Option.none
  | '+' :: rest => if allDigits rest then some (natOfDigits rest : Int) else Option.none
  | cs => if allDigits cs then some (natOfDigits cs : Int) else Option.none

/-- Python `int(x)`: identity on ints, truncation toward zero on
floats, 0/1 on booleans, decimal parsing on strings (whitespace
stripped); anything else raises (returns none).  `int("12.5")` fails,
as in Python. -/
def pyToInt : PyVal → Option Int
  | .int n => some n
  | .float q => some (q.num.tdiv q.den)
  | .bool b => some (if b then 1 else 0)
  | .str s => parseSignedInt (trimChars s.data)
  | _ => Option.none

/-- Parse the fractional-literal core of Python's `float()` on strings:
optional sign, digits with at most one dot; exotic forms (exponents,
inf/nan) are out of scope for the embedded claims. -/
def parseUnsignedFrac (cs : List Char) : Option Rat :=
  match cs.splitOn '.' with
  | [intPart] => if allDigits intPart then some (natOfDigits intPart : Rat) else Option.none
  | [intPart, fracPart] =>
      if (allDigits intPart || intPart.isEmpty) &&
         (allDigits fracPart || fracPart.isEmpty) &&
         !(intPart.isEmpty && fracPart.isEmpty) then
        some ((natOfDigits intPart : Rat) +
          (natOfDigits fracPart : Rat) / ((10 : Rat) ^ fracPart.length))
      else Option.none
  | _ => Option.none

/-- Signed fractional literal. -/
def parseSignedFrac : List Char → Option Rat
  | '-' :: rest => (parseUnsignedFrac rest).map (fun q => -q)
  | '+' :: rest => parseUnsignedFrac rest
  | cs => parseUnsignedFrac cs

/-- Python `float(x)`: identity on floats, exact on ints and booleans,
decimal parsing on strings; anything else raises (returns none). -/
def pyToFloat : PyVal → Option Rat
  | .float q => some q
  | .int n => some (n : Rat)
  | .bool b => some (if b then 1 else 0)
  | .str s => parseSignedFrac (trimChars s.data)
  | _ => Option.none

/-- An API-format workflow node: the fields of the node object that the
service layer reads.  `class_type`, `_meta.title` and `widgets_values`
are optional keys of the JSON object; `inputs` defaults to the empty
map when absent, exactly as `details.get("inputs", {})` does. -/
structure Node where
  class_type : Option String
  title : Option String
  inputs : Dict PyVal
  widgets_values : Option (List PyVal)
deriving DecidableEq, Repr

/-- An API-format workflow: a JSON object mapping node ids to nodes. -/
abbrev Workflow := Dict Node

deriving instance DecidableEq for Except

/-! ## Backend selection (services.py lines 22-78)

The network is modelled as data: each registered backend comes with the
outcome of probing its /queue endpoint — `some (running, pending)` when
the request returns HTTP 200 with those queue lengths, `none` when it
errors, times out, or returns a non-200 status. -/

/-- An active ConnectionConfig row together with the outcome of probing
its /queue endpoint. -/
structure BackendProbe where
  base_url : String
  queue : Option (Nat × Nat)
deriving DecidableEq, Repr

/-- Python `base_url.rstrip('/')`. -/
def rstripSlash (s : String) : String :=
  String.mk ((s.data.reverse.dropWhile (fun c => c = '/')).reverse)

/-- Ascending-by-load comparison used to sort probe results
(`results.sort(key=lambda x: x[1])`). -/
def byLoad (a b : String × Nat) : Prop := a.2 ≤ b.2

instance : DecidableRel byLoad := fun a b => Nat.decLe a.2 b.2

instance : IsTotal (String × Nat) byLoad := ⟨fun a b => Nat.le_total a.2 b.2⟩

instance : IsTrans (String × Nat) byLoad := ⟨fun _ _ _ => Nat.le_trans⟩

/-- Embedding of `check_gpu_load`: returns `(address, running+pending)`
on a 200 response and `(address, 9999)` when the probe errors, times
out, or returns a non-200 status. -/
def check_gpu_load (c : BackendProbe) : String × Nat :=
  let address := rstripSlash c.base_url
  match c.queue with
  | some (running, pending) => (address, running + pending)
  | Option.none => (address, 9999)

/-- Embedding of `get_active_comfyui_address`: with no active configs
return the hardcoded default; with exactly one, return its address
without probing; otherwise probe all, sort the `(address, load)` pairs
ascending by load, and return the best address, falling back to the
first registered config when even the best load is the failure
penalty 9999. -/
def get_active_comfyui_address (configs : List BackendProbe) : String :=
  match configs with
  | [] => "127.0.0.1:8188"
  | [c] => rstripSlash c.base_url
  | c0 :: c1 :: rest =>
      let results := (c0 :: c1 :: rest).map check_gpu_load
      match List.insertionSort byLoad results with
      | [] => "127.0.0.1:8188"
      | (best_address, load) :: _ =>
          if load = 9999 then rstripSlash c0.base_url else best_address

/-! ## Parameter injection: update_workflow (services.py lines 307-477)

The source mutates the workflow dict in place inside one loop over its
nodes; the embedding splits that loop body into the stages executed in
source order (whitelist auto-fix, role/title-driven text updates, LoRA
slots, the class-specific elif chain, the trailing sampler-seed
update) and threads the node through them functionally.  The elif
chain's branch conditions compare distinct class_type literals, so it
is represented as a match on class_type.  `Except` marks the two points
where the source can raise out of the loop: the unguarded
`new_values["height"]` access in the EmptyLatentImage branch, and
`class_type.lower()` on a node with no class_type. -/

/-- The new_values parameter bag. -/
abbrev Params := Dict PyVal

/-- Priority list of text-bearing field names tried by update_text. -/
def text_candidates : List String := ["text", "text_g", "text_l", "prompt", "value"]

/-- Python `isinstance(v, list)`. -/
def isListVal : PyVal → Bool
  | .list _ => true
  | _ => false

/-- Candidate scan of update_text (lines 374-378): assign val to the
first candidate field that is present and is not a list, returning none
when every candidate is absent or list-valued. -/
def updateFirstCandidate (val : PyVal) (inputs : Dict PyVal) :
    List String → Option (Dict PyVal)
  | [] => Option.none
  | k :: ks =>
      match dictGet inputs k with
      | some v =>
          if isListVal v then updateFirstCandidate val inputs ks
          else some (dictSet inputs k val)
      | Option.none => updateFirstCandidate val inputs ks

/-- The update_text closure, API branch (lines 371-380): try the
candidate input fields; if none was updated, fall back to overwriting
widgets_values[0] when widgets_values is non-empty. -/
def update_text (val : PyVal) (node : Node) : Node :=
  match updateFirstCandidate val node.inputs text_candidates with
  | some inputs' => { node with inputs := inputs' }
  | Option.none =>
      match node.widgets_values with
      | some (_ :: ws) => { node with widgets_values := some (val :: ws) }
      | _ => node

/-- Id of the injected dummy whitelist node. -/
def dummy_whitelist_id : String := "99999"

/-- The auto-generated dummy whitelist node (lines 318-322). -/
def dummy_whitelist_node : Node :=
  { class_type := some "DW_Text", title := some "AUTO_GENERATED_WHITELIST",
    inputs := [("text", PyVal.str "")], widgets_values := Option.none }

/-- Whitelist auto-fix (lines 365-368): a DW_Ultimate_Blacklist_Filter
node lacking a WHITELIST input gets wired to the dummy node. -/
def whitelistFix (node : Node) : Node :=
  if node.class_type = some "DW_Ultimate_Blacklist_Filter" ∧ ¬ dictHas node.inputs "WHITELIST" then
    { node with inputs := dictSet node.inputs "WHITELIST" (.list [.str dummy_whitelist_id, .int 0]) }
  else node

/-- One guarded text update: when the guard holds and the parameter is
present, write it through update_text (the shape of each of lines
389-392 and 401-411). -/
def textIfParam (cond : Bool) (nv : Params) (key : String) (node : Node) : Node :=
  if cond then
    (match dictGet nv key with
     | some v => update_text v node
     | Option.none => node)
  else node

/-- The BLACK_LIST_TAGS branch body (lines 395-399): a falsy
enable_blacklist blanks the field, otherwise a supplied black_list_tags
value is written. -/
def blacklistStep (nv : Params) (node : Node) : Node :=
  match dictGet nv "enable_blacklist" with
  | some e =>
      if !pyTruthy e then update_text (.str "") node
      else textIfParam true nv "black_list_tags" node
  | Option.none => textIfParam true nv "black_list_tags" node

/-- Role- and title-driven text updates (lines 389-411), in source
order: positive/negative role membership first, then the five exact
uppercase title matches. -/
def roleTitleUpdates (nv : Params) (isPos isNeg : Bool) (node : Node) : Node :=
  let title := strUpper (node.title.getD "")
  let n1 := textIfParam isPos nv "prompt" node
  let n2 := textIfParam isNeg nv "negative_prompt" n1
  let n3 := if title = "BLACK_LIST_TAGS" then blacklistStep nv n2 else n2
  let n4 := textIfParam (decide (title = "PROMP_DETAILERS")) nv "promp_detailers" n3
  let n5 := textIfParam (decide (title = "NEGATIVE PROMP")) nv "negative_prompt" n4
  let n6 := textIfParam (decide (title = "PROMP_CHARACTER")) nv "promp_character" n5
  textIfParam (decide (title = "PROMP_USUARIO")) nv "prompt" n6

/-- Input-field key of LoRA slot i's name. -/
def loraNameKey (i : Nat) : String := "lora_" ++ toString i ++ "_name"

/-- Input-field key of LoRA slot i's strength. -/
def loraStrengthKey (i : Nat) : String := "lora_" ++ toString i ++ "_strength"

/-- Reset of the six LoRA slots to the disabled sentinel (line 416). -/
def resetLoraSlots (inputs : Dict PyVal) : Dict PyVal :=
  (List.range 6).foldl (fun ins i =>
    dictSet (dictSet ins (loraNameKey (i + 1)) (.str "None")) (loraStrengthKey (i + 1)) (.float 1)) inputs

/-- Fill of LoRA slots from the supplied names/strengths (lines
417-423): the i-th retained name goes to slot i+1; its strength is
float-coerced with fallback 1.0 and only written when a strength was
supplied at that index. -/
def setLoraEntries (lss : List PyVal) : Nat → List String → Dict PyVal → Dict PyVal
  | _, [], ins => ins
  | i, nm :: rest, ins =>
      let ins1 := dictSet ins (loraNameKey (i + 1)) (.str nm)
      let ins2 :=
        if h : i < lss.length then
          dictSet ins1 (loraStrengthKey (i + 1))
            (match pyToFloat (lss.get ⟨i, h⟩) with
             | some q => .float q
             | Option.none => .float 1)
        else ins1
      setLoraEntries lss (i + 1) rest ins2

/-- LoRA stack update (lines 414-423), applied to
DW_LoRAStackApplySimple nodes only: reset all six slots, then fill from
the first six supplied names. -/
def loraUpdate (lora_names : List String) (lora_strengths : List PyVal) (node : Node) : Node :=
  if node.class_type = some "DW_LoRAStackApplySimple" then
    { node with inputs := setLoraEntries lora_strengths 0 (lora_names.take 6) (resetLoraSlots node.inputs) }
  else node

/-- The WIDTH write of the DW_resolution branch (lines 437-439, 448):
performed only when a width was supplied and int-coerces. -/
def updWidth (nv : Params) (ins : Dict PyVal) : Dict PyVal :=
  match (dictGet nv "width").bind pyToInt with
  | some n => dictSet ins "WIDTH" (.int n)
  | Option.none => ins

/-- The HEIGHT write of the DW_resolution branch (lines 440-442, 449). -/
def updHeight (nv : Params) (ins : Dict PyVal) : Dict PyVal :=
  match (dictGet nv "height").bind pyToInt with
  | some n => dictSet ins "HEIGHT" (.int n)
  | Option.none => ins

/-- The UPSCALER write of the DW_resolution branch (lines 443-445,
450): float coercion. -/
def updUpscaler (nv : Params) (ins : Dict PyVal) : Dict PyVal :=
  match (dictGet nv "upscale_by").bind pyToFloat with
  | some q => dictSet ins "UPSCALER" (.float q)
  | Option.none => ins

/-- The class-specific elif chain (lines 426-470).  The only raising
path is the unguarded `new_values["height"]` lookup in the
EmptyLatentImage branch; numeric coercion failures are caught and leave
the node unmodified. -/
def classUpdates (nv : Params) (node : Node) : Except String Node :=
  match node.class_type with
  | some "CheckpointLoaderSimple" =>
      pure (match dictGet nv "checkpoint" with
        | some v => { node with inputs := dictSet node.inputs "ckpt_name" v }
        | Option.none => node)
  | some "VAELoader" =>
      pure (match dictGet nv "vae" with
        | some v =>
            if v = .str "None" then node
            else { node with inputs := dictSet node.inputs "vae_name" v }
        | Option.none => node)
  | some "DW_resolution" =>
      pure { node with inputs := updUpscaler nv (updHeight nv (updWidth nv node.inputs)) }
  | some "EmptyLatentImage" =>
      (match dictGet nv "width" with
       | Option.none => pure node
       | some wv =>
          match pyToInt wv with
          | Option.none => pure node
          | some wi =>
              match dictGet nv "height" with
              | Option.none => Except.error "KeyError: height"
              | some hv =>
                  match pyToInt hv with
                  | Option.none => pure node
                  | some hi =>
                      pure { node with
                        inputs := dictSet (dictSet node.inputs "width" (.int wi)) "height" (.int hi) })
  | some "DW_seed" =>
      pure (match dictGet nv "seed" with
        | some sv =>
            (match pyToInt sv with
             | some s => { node with inputs := dictSet node.inputs "seed" (.int s) }
             | Option.none => node)
        | Option.none => node)
  | _ => pure node

/-- The trailing sampler-seed update (lines 472-475): for a node whose
class_type contains "sampler" (case-insensitive), a supplied seed is
int-coerced into the seed input unless that input is a Reference list;
a node with no class_type makes `class_type.lower()` raise. -/
def samplerSeedUpdate (nv : Params) (node : Node) : Except String Node :=
  match node.class_type with
  | Option.none => Except.error "AttributeError: lower on None"
  | some ct =>
      if pyIn "sampler" (strLower ct) then
        pure (match dictGet nv "seed", dictGet node.inputs "seed" with
          | some sv, some cur =>
              if isListVal cur then node
              else
                (match pyToInt sv with
                 | some s => { node with inputs := dictSet node.inputs "seed" (.int s) }
                 | Option.none => node)
          | _, _ => node)
      else pure node

/-- One node's pass through the update loop body, stages in source
order. -/
def updateNode (nv : Params) (lora_names : List String) (lora_strengths : List PyVal)
    (isPos isNeg : Bool) (node : Node) : Except String Node :=
  match classUpdates nv
      (loraUpdate lora_names lora_strengths (roleTitleUpdates nv isPos isNeg (whitelistFix node))) with
  | Except.error e => Except.error e
  | Except.ok n4 => samplerSeedUpdate nv n4

/-- Lowercased node title, as in the detection loop (line 337). -/
def titleLower (node : Node) : String := strLower (node.title.getD "")

/-- Ids collected into positive_nodes (line 342). -/
def positive_node_ids (wf : Workflow) : List String :=
  (wf.filter (fun p => pyIn "positive" (titleLower p.2))).map Prod.fst

/-- Ids collected into negative_nodes (line 343; elif, so a title
containing "positive" is never negative). -/
def negative_node_ids (wf : Workflow) : List String :=
  (wf.filter (fun p => !pyIn "positive" (titleLower p.2) && pyIn "negative" (titleLower p.2))).map Prod.fst

/-- The update loop over all nodes, in dict order. -/
def updateNodes (nv : Params) (lora_names : List String) (lora_strengths : List PyVal)
    (posIds negIds : List String) : Workflow → Except String Workflow
  | [] => Except.ok []
  | (nid, node) :: rest =>
      match updateNode nv lora_names lora_strengths
          (decide (nid ∈ posIds)) (decide (nid ∈ negIds)) node with
      | Except.error e => Except.error e
      | Except.ok n' =>
          match updateNodes nv lora_names lora_strengths posIds negIds rest with
          | Except.error e => Except.error e
          | Except.ok rest' => Except.ok ((nid, n') :: rest')

/-- Embedding of `update_workflow` on an API-format workflow: insert
the dummy whitelist node under id 99999 (replacing any existing node
with that id), compute the positive/negative role sets from titles,
then run every node through the update loop. -/
def update_workflow (wf : Workflow) (nv : Params) (lora_names : List String)
    (lora_strengths : List PyVal) : Except String Workflow :=
  let wf1 := dictSet wf dummy_whitelist_id dummy_whitelist_node
  updateNodes nv lora_names lora_strengths (positive_node_ids wf1) (negative_node_ids wf1) wf1

/-! ## Dependency pruning: find_dependencies (services.py lines 479-494) -/

/-- Reference targets of a node's inputs: for each value that is a
two-element list whose first element is a string, an int or a bool
(`isinstance(value[0], (str, int))`; Python bools are ints), the
stringified first element. -/
def refTargets (node : Node) : List String :=
  node.inputs.filterMap (fun p =>
    match p.2 with
    | .list [v0, _] =>
        (match v0 with
         | .str _ => some (pyStrS v0)
         | .int _ => some (pyStrS v0)
         | .bool _ => some (pyStrS v0)
         | _ => Option.none)
    | _ => Option.none)

/-- Successors of a node id: the reference targets of its node when the
id resolves, nothing otherwise (`workflow.get(current_id)`). -/
def succs (wf : Workflow) (a : String) : List String :=
  match dictGet wf a with
  | some node => refTargets node
  | Option.none => []

/-- Every reference target appearing anywhere in the workflow. -/
def allRefs (wf : Workflow) : List String :=
  wf.flatMap (fun p => refTargets p.2)

/-- One step of the worklist loop of find_dependencies, with explicit
fuel.  The loop pops the queue front, skips already-kept ids, otherwise
keeps the id and enqueues its reference targets that are not yet kept.
The fuel only bounds the iteration count; `depsFuel` below always
suffices, so the fuel-exhausted branch is never taken from
`find_dependencies`. -/
def find_deps_aux (wf : Workflow) : Nat → List String → List String → List String
  | 0, visited, _ => visited
  | _ + 1, visited, [] => visited
  | fuel + 1, visited, c :: queue =>
      if c ∈ visited then find_deps_aux wf fuel visited queue
      else
        let visited' := visited ++ [c]
        let deps := (succs wf c).filter (fun d => decide (d ∉ visited'))
        find_deps_aux wf fuel visited' (queue ++ deps)

/-- Iteration bound sufficient for the worklist loop to drain. -/
def depsFuel (wf : Workflow) : Nat :=
  ((allRefs wf).length + 1) * ((allRefs wf).length + 1) + 2

/-- Embedding of `find_dependencies`: the set of node ids kept when
pruning from start_node_id, as the list of ids in visit order. -/
def find_dependencies (wf : Workflow) (start : String) : List String :=
  find_deps_aux wf (depsFuel wf) [] [start]

/-- Reachability along reference edges: the closure find_dependencies
is specified to compute. -/
inductive Reaches (wf : Workflow) : String → String → Prop
  | refl (a : String) : Reaches wf a a
  | step {a b c : String} (hb : b ∈ succs wf a) (h : Reaches wf b c) : Reaches wf a c

/-! ## Stage mapping: map_workflow_stages (services.py lines 496-578)

API-format branch.  `Except` marks the places the source can raise
(indexing `[0]` into an empty list, `.lower()` on a non-string mask
prompt). -/

/-- A stage map: stage tag to sampler node id, in insertion order. -/
abbrev StageMap := Dict String

/-- Test of line 519: the node's class_type exists and contains
"sampler" case-insensitively. -/
def isSamplerClass : Option String → Bool
  | some ct => pyIn "sampler" (strLower ct)
  | Option.none => false

/-- The sampler_nodes collection pass (lines 508-520), in dict order. -/
def sampler_nodes (wf : Workflow) : List (String × Node) :=
  wf.filter (fun p => isSamplerClass p.2.class_type)

/-- Mask-prompt extraction from a SAM node (lines 543-548): prefer the
prompt input, else str() of the first widget value (IndexError on an
empty widgets list), else the empty string. -/
def get_mask_prompt (mask_node : Node) : Except String PyVal :=
  match dictGet mask_node.inputs "prompt" with
  | some v => pure v
  | Option.none =>
      match mask_node.widgets_values with
      | some [] => Except.error "IndexError: widgets_values"
      | some (w :: _) => pure (.str (pyStr w))
      | Option.none => pure (.str "")

/-- Python `x.lower()` on a value: only strings have the method. -/
def pyLowerVal : PyVal → Except String String
  | .str s => pure (strLower s)
  | _ => Except.error "AttributeError: lower"

/-- One sampler's pass through the mask-detection body (lines
526-551). -/
def stageMaskStep (wf : Workflow) (sid : String) (snode : Node) (m : StageMap) :
    Except String StageMap :=
  match dictGet snode.inputs "mask" with
  | some (.list vs) =>
      (match vs with
       | [] => Except.error "IndexError: mask"
       | v0 :: _ =>
          (match dictGet wf (pyStrS v0) with
           | some mask_node =>
              if pyIn "SAM" (mask_node.class_type.getD "") then
                match get_mask_prompt mask_node with
                | Except.error e => Except.error e
                | Except.ok p =>
                    (match pyLowerVal p with
                     | Except.error e => Except.error e
                     | Except.ok s =>
                        if pyIn "eye" s then Except.ok (dictSet m "Gen_EyeDetailer" sid)
                        else if pyIn "face" s then Except.ok (dictSet m "Gen_FaceDetailer" sid)
                        else Except.ok m)
              else Except.ok m
           | Option.none => Except.ok m))
  | _ => Except.ok m

/-- First stage-mapping pass (lines 523-551): a sampler whose mask
input is a Reference into a SAM-class node is tagged Gen_EyeDetailer or
Gen_FaceDetailer from the SAM node's prompt text ("eye" checked before
"face"). -/
def stagePass1 (wf : Workflow) : List (String × Node) → StageMap → Except String StageMap
  | [], m => Except.ok m
  | (sid, snode) :: rest, m =>
      match stageMaskStep wf sid snode m with
      | Except.error e => Except.error e
      | Except.ok m' => stagePass1 wf rest m'

/-- Probe of one of the latent_image/image inputs (lines 560-573):
true when the input is a Reference whose source node's class_type
contains "Resize" or "Upscale" (case-sensitive). -/
def upscale_source (wf : Workflow) (inputs : Dict PyVal) (input_name : String) :
    Except String Bool :=
  match dictGet inputs input_name with
  | some (.list vs) =>
      (match vs with
       | [] => Except.error "IndexError: source"
       | v0 :: _ =>
          (match dictGet wf (pyStrS v0) with
           | some src =>
              pure (pyIn "Resize" (src.class_type.getD "") || pyIn "Upscale" (src.class_type.getD ""))
           | Option.none => pure false))
  | _ => pure false

/-- Second stage-mapping pass (lines 554-576): samplers already among
the map's values are skipped; otherwise a sampler fed from a
Resize/Upscale node becomes Gen_UpScaler, and a sampler with neither a
latent_image nor an image input becomes Gen_Normal. -/
def stageUpscaleStep (wf : Workflow) (sid : String) (snode : Node) (m : StageMap) :
    Except String StageMap :=
  match upscale_source wf snode.inputs "latent_image" with
  | Except.error e => Except.error e
  | Except.ok true => Except.ok (dictSet m "Gen_UpScaler" sid)
  | Except.ok false =>
      match upscale_source wf snode.inputs "image" with
      | Except.error e => Except.error e
      | Except.ok true => Except.ok (dictSet m "Gen_UpScaler" sid)
      | Except.ok false =>
          if ¬ dictHas snode.inputs "latent_image" ∧ ¬ dictHas snode.inputs "image" then
            Except.ok (dictSet m "Gen_Normal" sid)
          else Except.ok m

/-- Second stage-mapping pass continued: the per-sampler loop with the
already-classified guard (line 555). -/
def stagePass2 (wf : Workflow) : List (String × Node) → StageMap → Except String StageMap
  | [], m => Except.ok m
  | (sid, snode) :: rest, m =>
      if (m.map Prod.snd).contains sid then stagePass2 wf rest m
      else
        match stageUpscaleStep wf sid snode m with
        | Except.error e => Except.error e
        | Except.ok m' => stagePass2 wf rest m'

/-- Embedding of `map_workflow_stages` on an API-format workflow. -/
def map_workflow_stages (wf : Workflow) : Except String StageMap :=
  match stagePass1 wf (sampler_nodes wf) [] with
  | Except.error e => Except.error e
  | Except.ok m1 => stagePass2 wf (sampler_nodes wf) m1

/-- The justification the mask pass requires before tagging a sampler
as the eye-detail stage (services.py lines 527-549): its mask input is
a reference list into a SAM-class node whose prompt text lowercases to
a string containing "eye". -/
def EyeCore (wf : Workflow) (snode : Node) : Prop :=
  ∃ v0 rest mnode p s,
    dictGet snode.inputs "mask" = some (.list (v0 :: rest)) ∧
    dictGet wf (pyStrS v0) = some mnode ∧
    pyIn "SAM" (mnode.class_type.getD "") = true ∧
    get_mask_prompt mnode = Except.ok p ∧
    pyLowerVal p = Except.ok s ∧
    pyIn "eye" s = true

/-- Likewise for the face-detail stage: "face" in a prompt that does
not contain "eye" (the eye test is the `if` before the face `elif`). -/
def FaceCore (wf : Workflow) (snode : Node) : Prop :=
  ∃ v0 rest mnode p s,
    dictGet snode.inputs "mask" = some (.list (v0 :: rest)) ∧
    dictGet wf (pyStrS v0) = some mnode ∧
    pyIn "SAM" (mnode.class_type.getD "") = true ∧
    get_mask_prompt mnode = Except.ok p ∧
    pyLowerVal p = Except.ok s ∧
    pyIn "eye" s = false ∧
    pyIn "face" s = true

/-- Stage rule (eye-detail): the id belongs to a sampler node whose
mask traces to a SAM node with an "eye" prompt. -/
def EyeRule (wf : Workflow) (sid : String) : Prop :=
  ∃ snode, (sid, snode) ∈ sampler_nodes wf ∧ EyeCore wf snode

/-- Stage rule (face-detail). -/
def FaceRule (wf : Workflow) (sid : String) : Prop :=
  ∃ snode, (sid, snode) ∈ sampler_nodes wf ∧ FaceCore wf snode

/-- Stage rule (upscale): a latent_image or image input referencing a
Resize/Upscale-class node, latent_image probed first. -/
def UpscaleRule (wf : Workflow) (sid : String) : Prop :=
  ∃ snode, (sid, snode) ∈ sampler_nodes wf ∧
    (upscale_source wf snode.inputs "latent_image" = Except.ok true ∨
     (upscale_source wf snode.inputs "latent_image" = Except.ok false ∧
      upscale_source wf snode.inputs "image" = Except.ok true))

/-- Stage rule (normal): a sampler with neither a latent_image nor an
image input. -/
def NormalRule (wf : Workflow) (sid : String) : Prop :=
  ∃ snode, (sid, snode) ∈ sampler_nodes wf ∧
    dictHas snode.inputs "latent_image" = false ∧
    dictHas snode.inputs "image" = false

/-- The four stage tags the mapper can emit. -/
def stageTags : List String :=
  ["Gen_EyeDetailer", "Gen_FaceDetailer", "Gen_UpScaler", "Gen_Normal"]

/-- Per-stage soundness of a stage map: every binding is justified by
its stage rule and no keys outside the four stage tags occur. -/
def StageSound (wf : Workflow) (m : StageMap) : Prop :=
  (∀ sid, dictGet m "Gen_EyeDetailer" = some sid → EyeRule wf sid) ∧
  (∀ sid, dictGet m "Gen_FaceDetailer" = some sid → FaceRule wf sid) ∧
  (∀ sid, dictGet m "Gen_UpScaler" = some sid → UpscaleRule wf sid) ∧
  (∀ sid, dictGet m "Gen_Normal" = some sid → NormalRule wf sid) ∧
  (∀ k, k ∈ m.map Prod.fst → k ∈ stageTags)

/-! ## Generation orchestration tail (services.py lines 846-877)

The websocket stream, the /history manifest and the /view downloads are
modelled as input data: a list of received events (the list ending
models the connection closing), the manifest the backend returns for
the prompt id (none models a missing history entry, whose lookup
raises), and a fetch function (none models a failed download, which
`get_image` signals by returning None). -/

/-- An artifact descriptor from the output manifest. -/
structure ImageRef where
  filename : String
  subfolder : String
  ftype : String
deriving DecidableEq, Repr

/-- A parsed websocket message, by its type field. -/
inductive WsEvent where
  | execution_error (info : String)
  | executing (node : Option String)
  | other
deriving DecidableEq, Repr

/-- The websocket read loop (lines 857-867): returns the diagnostics
printed for execution_error events seen before the loop exits; the loop
exits at the first executing event whose node is null, or when the
stream ends (connection closed).  Every event other than that terminal
one — execution_error included — leaves the loop running. -/
def consume_stream : List WsEvent → List String
  | [] => []
  | .execution_error d :: rest => d :: consume_stream rest
  | .executing Option.none :: _ => []
  | .executing (some _) :: rest => consume_stream rest
  | .other :: rest => consume_stream rest

/-- The classification attached to every downloaded artifact (line
851): the last allowed type, or "Gen_Normal" when none were given. -/
def target_tag (allowed_types : List String) : String :=
  allowed_types.getLastD "Gen_Normal"

/-- The manifest loop (lines 870-876): scan output entries in order; at
the first node whose output lists an image, download images[0]; on
success record (bytes, target_classification) and stop; a failed
download (get_image returned None) does not stop the scan. -/
def collect_images (fetch : ImageRef → Option String) (tag : String) :
    Dict (List ImageRef) → List (String × String)
  | [] => []
  | (_, []) :: rest => collect_images fetch tag rest
  | (_, img :: _) :: rest =>
      (match fetch img with
       | some bytes => [(bytes, tag)]
       | Option.none => collect_images fetch tag rest)

/-- The backend's observable responses for one job: the submit result
 (queue_prompt raises on an HTTP error), the event stream, the history
manifest for the prompt id, and the artifact download function. -/
structure RunData where
  queue_result : Except String String
  stream : List WsEvent
  history : Option (Dict (List ImageRef))
  fetch : ImageRef → Option String

/-- The orchestration tail of `generate_image_from_character` (lines
846-877): submit, consume the event stream (its diagnostics are only
printed), fetch the history manifest, and collect downloaded images
tagged with the target classification. -/
def orchestrate (net : RunData) (allowed_types : List String) :
    Except String (List (String × String)) := do
  let _prompt_id ← net.queue_result
  let _log := consume_stream net.stream
  match net.history with
  | Option.none => Except.error "KeyError: prompt_id"
  | some outputs => pure (collect_images net.fetch (target_tag allowed_types) outputs)

/-! ## Lemmas about the text-update machinery -/

theorem updateFirstCandidate_spec (val : PyVal) (inputs : Dict PyVal) :
    ∀ ks r, updateFirstCandidate val inputs ks = some r →
      ∃ k, k ∈ ks ∧ ∃ v, dictGet inputs k = some v ∧ isListVal v = false ∧
        r = dictSet inputs k val := by
  intro ks
  induction ks with
  | nil => intro r h; simp [updateFirstCandidate] at h
  | cons k ks ih =>
      intro r h
      unfold updateFirstCandidate at h
      split at h
      next v hg =>
        split at h
        next hl =>
          obtain ⟨k', hk', rest⟩ := ih r h
          exact ⟨k', List.mem_cons_of_mem k hk', rest⟩
        next hl =>
          exact ⟨k, List.mem_cons_self k ks, v, hg, by simpa using hl,
            (Option.some_injective _ h).symm⟩
      next hg =>
        obtain ⟨k', hk', rest⟩ := ih r h
        exact ⟨k', List.mem_cons_of_mem k hk', rest⟩

theorem update_text_list_preserved (val : PyVal) (node : Node) (k : String)
    (xs : List PyScal) (hv : dictGet node.inputs k = some (.list xs)) :
    dictGet (update_text val node).inputs k = some (.list xs) := by
  unfold update_text
  cases h : updateFirstCandidate val node.inputs text_candidates with
  | none =>
      cases hw : node.widgets_values with
      | none => simpa using hv
      | some ws => cases ws <;> simpa using hv
  | some r =>
      obtain ⟨k', _, v, hg, hnl, rfl⟩ := updateFirstCandidate_spec val node.inputs _ r h
      have hne : k' ≠ k := by
        intro he
        subst he
        rw [hg] at hv
        cases hv
        simp [isListVal] at hnl
      simpa [dictGet_dictSet_ne _ _ hne] using hv

theorem update_text_nonCandidate (val : PyVal) (node : Node) (k : String)
    (hk : k ∉ text_candidates) :
    dictGet (update_text val node).inputs k = dictGet node.inputs k := by
  unfold update_text
  cases h : updateFirstCandidate val node.inputs text_candidates with
  | none =>
      cases hw : node.widgets_values with
      | none => simp
      | some ws => cases ws <;> simp
  | some r =>
      obtain ⟨k', hk', v, hg, hnl, rfl⟩ := updateFirstCandidate_spec val node.inputs _ r h
      have hne : k' ≠ k := fun he => hk (he ▸ hk')
      simp [dictGet_dictSet_ne _ _ hne]

theorem update_text_class_type (val : PyVal) (node : Node) :
    (update_text val node).class_type = node.class_type := by
  unfold update_text
  cases h : updateFirstCandidate val node.inputs text_candidates with
  | none =>
      cases hw : node.widgets_values with
      | none => simp
      | some ws => cases ws <;> simp
  | some r => simp

theorem update_text_title (val : PyVal) (node : Node) :
    (update_text val node).title = node.title := by
  unfold update_text
  cases h : updateFirstCandidate val node.inputs text_candidates with
  | none =>
      cases hw : node.widgets_values with
      | none => simp
      | some ws => cases ws <;> simp
  | some r => simp

/-- Nodes obtainable from a given node by a sequence of update_text
writes: every path through roleTitleUpdates produces such a node. -/
inductive TextChain : Node → Node → Prop
  | refl (a : Node) : TextChain a a
  | step {a b : Node} (v : PyVal) (h : TextChain a b) : TextChain a (update_text v b)

theorem TextChain.trans {a b c : Node} (h1 : TextChain a b) (h2 : TextChain b c) :
    TextChain a c := by
  induction h2 with
  | refl => exact h1
  | step v _ ih => exact TextChain.step v ih

theorem textChain_textIfParam (c : Bool) (nv : Params) (k : String) (n : Node) :
    TextChain n (textIfParam c nv k n) := by
  unfold textIfParam
  split
  · split
    · exact TextChain.step _ (TextChain.refl n)
    · exact TextChain.refl n
  · exact TextChain.refl n

theorem textChain_blacklistStep (nv : Params) (n : Node) :
    TextChain n (blacklistStep nv n) := by
  unfold blacklistStep
  split
  · split
    · exact TextChain.step _ (TextChain.refl n)
    · exact textChain_textIfParam true nv "black_list_tags" n
  · exact textChain_textIfParam true nv "black_list_tags" n

theorem TextChain.textIfParam_right {a b : Node} (h : TextChain a b) (c : Bool)
    (nv : Params) (k : String) : TextChain a (textIfParam c nv k b) :=
  h.trans (textChain_textIfParam c nv k b)

theorem textChain_roleTitleUpdates (nv : Params) (p q : Bool) (node : Node) :
    TextChain node (roleTitleUpdates nv p q node) := by
  unfold roleTitleUpdates
  refine TextChain.textIfParam_right (TextChain.textIfParam_right
    (TextChain.textIfParam_right (TextChain.textIfParam_right ?_ _ nv _) _ nv _) _ nv _) _ nv _
  by_cases hb : (strUpper (node.title.getD "") = "BLACK_LIST_TAGS")
  · rw [if_pos hb]
    exact ((TextChain.refl node).textIfParam_right p nv "prompt").textIfParam_right q nv
      "negative_prompt" |>.trans (textChain_blacklistStep nv _)
  · rw [if_neg hb]
    exact ((TextChain.refl node).textIfParam_right p nv "prompt").textIfParam_right q nv
      "negative_prompt"

theorem TextChain.list_preserved {a b : Node} (h : TextChain a b) (k : String)
    (xs : List PyScal) (hv : dictGet a.inputs k = some (.list xs)) :
    dictGet b.inputs k = some (.list xs) := by
  induction h with
  | refl => exact hv
  | step v _ ih => exact update_text_list_preserved v _ k xs ih

theorem TextChain.nonCandidate {a b : Node} (h : TextChain a b) (k : String)
    (hk : k ∉ text_candidates) :
    dictGet b.inputs k = dictGet a.inputs k := by
  induction h with
  | refl => rfl
  | step v _ ih => rw [update_text_nonCandidate v _ k hk, ih]

theorem TextChain.class_type {a b : Node} (h : TextChain a b) :
    b.class_type = a.class_type := by
  induction h with
  | refl => rfl
  | step v _ ih => rw [update_text_class_type, ih]

theorem TextChain.title_eq {a b : Node} (h : TextChain a b) :
    b.title = a.title := by
  induction h with
  | refl => rfl
  | step v _ ih => rw [update_text_title, ih]

/-! ## Frame lemmas for the remaining update stages -/

theorem whitelistFix_frame (node : Node) (k : String) (hk : k ≠ "WHITELIST") :
    dictGet (whitelistFix node).inputs k = dictGet node.inputs k := by
  unfold whitelistFix
  split
  · simp [dictGet_dictSet_ne _ _ (Ne.symm hk)]
  · rfl

theorem whitelistFix_class_type (node : Node) :
    (whitelistFix node).class_type = node.class_type := by
  unfold whitelistFix; split <;> simp

theorem whitelistFix_title (node : Node) :
    (whitelistFix node).title = node.title := by
  unfold whitelistFix; split <;> simp

theorem loraNameKey_length (i : Nat) : 10 ≤ (loraNameKey i).length := by
  unfold loraNameKey
  rw [String.length_append, String.length_append]
  have h1 : ("lora_" : String).length = 5 := rfl
  have h2 : ("_name" : String).length = 5 := rfl
  omega

theorem loraStrengthKey_length (i : Nat) : 10 ≤ (loraStrengthKey i).length := by
  unfold loraStrengthKey
  rw [String.length_append, String.length_append]
  have h1 : ("lora_" : String).length = 5 := rfl
  have h2 : ("_strength" : String).length = 9 := rfl
  omega

theorem ne_loraNameKey {k : String} (h : k.length < 10) (i : Nat) : loraNameKey i ≠ k := by
  intro he
  have := loraNameKey_length i
  rw [he] at this
  omega

theorem ne_loraStrengthKey {k : String} (h : k.length < 10) (i : Nat) : loraStrengthKey i ≠ k := by
  intro he
  have := loraStrengthKey_length i
  rw [he] at this
  omega

theorem resetLoraSlots_frame (k : String) (hk : k.length < 10) (ins : Dict PyVal) :
    dictGet (resetLoraSlots ins) k = dictGet ins k := by
  unfold resetLoraSlots
  generalize List.range 6 = l
  induction l generalizing ins with
  | nil => rfl
  | cons i t ih =>
      rw [List.foldl_cons, ih]
      rw [dictGet_dictSet_ne _ _ (ne_loraStrengthKey hk (i + 1)),
        dictGet_dictSet_ne _ _ (ne_loraNameKey hk (i + 1))]

theorem setLoraEntries_frame (lss : List PyVal) (k : String) (hk : k.length < 10) :
    ∀ (i : Nat) (names : List String) (ins : Dict PyVal),
      dictGet (setLoraEntries lss i names ins) k = dictGet ins k := by
  intro i names
  induction names generalizing i with
  | nil => intro ins; rfl
  | cons nm rest ih =>
      intro ins
      unfold setLoraEntries
      rw [ih]
      split
      · rw [dictGet_dictSet_ne _ _ (ne_loraStrengthKey hk (i + 1)),
          dictGet_dictSet_ne _ _ (ne_loraNameKey hk (i + 1))]
      · rw [dictGet_dictSet_ne _ _ (ne_loraNameKey hk (i + 1))]

theorem loraUpdate_frame (lns : List String) (lss : List PyVal) (node : Node)
    (k : String) (hk : k.length < 10) :
    dictGet (loraUpdate lns lss node).inputs k = dictGet node.inputs k := by
  unfold loraUpdate
  split
  · rw [show ({ node with inputs := setLoraEntries lss 0 (lns.take 6) (resetLoraSlots node.inputs) } : Node).inputs
        = setLoraEntries lss 0 (lns.take 6) (resetLoraSlots node.inputs) from rfl]
    rw [setLoraEntries_frame lss k hk, resetLoraSlots_frame k hk]
  · rfl

theorem loraUpdate_class_type (lns : List String) (lss : List PyVal) (node : Node) :
    (loraUpdate lns lss node).class_type = node.class_type := by
  unfold loraUpdate; split <;> simp

theorem loraUpdate_title (lns : List String) (lss : List PyVal) (node : Node) :
    (loraUpdate lns lss node).title = node.title := by
  unfold loraUpdate; split <;> simp

theorem classUpdates_class_type {nv : Params} {node n' : Node}
    (h : classUpdates nv node = .ok n') : n'.class_type = node.class_type := by
  unfold classUpdates at h
  split at h
  all_goals repeat' (split at h)
  all_goals simp [pure, Except.pure] at h
  all_goals subst h
  all_goals simp

theorem classUpdates_title {nv : Params} {node n' : Node}
    (h : classUpdates nv node = .ok n') : n'.title = node.title := by
  unfold classUpdates at h
  split at h
  all_goals repeat' (split at h)
  all_goals simp [pure, Except.pure] at h
  all_goals subst h
  all_goals simp

/-- Input keys the class-specific elif chain can write. -/
def classWriteKeys : List String :=
  ["ckpt_name", "vae_name", "WIDTH", "HEIGHT", "UPSCALER", "width", "height", "seed"]

theorem classUpdates_frame {nv : Params} {node n' : Node}
    (h : classUpdates nv node = .ok n') (k : String) (hk : k ∉ classWriteKeys) :
    dictGet n'.inputs k = dictGet node.inputs k := by
  simp only [classWriteKeys, List.mem_cons, List.not_mem_nil, or_false, not_or] at hk
  obtain ⟨h1, h2, h3, h4, h5, h6, h7, h8⟩ := hk
  unfold classUpdates updWidth updHeight updUpscaler at h
  split at h
  all_goals repeat' (split at h)
  all_goals simp [pure, Except.pure] at h
  all_goals subst h
  all_goals simp [dictGet_dictSet_ne, Ne.symm h1, Ne.symm h2, Ne.symm h3, Ne.symm h4,
    Ne.symm h5, Ne.symm h6, Ne.symm h7, Ne.symm h8]

theorem classUpdates_seed_frame {nv : Params} {node n' : Node}
    (h : classUpdates nv node = .ok n') (hc : node.class_type ≠ some "DW_seed") :
    dictGet n'.inputs "seed" = dictGet node.inputs "seed" := by
  unfold classUpdates updWidth updHeight updUpscaler at h
  split at h
  any_goals (exfalso; apply hc; assumption)
  all_goals repeat' (split at h)
  all_goals simp [pure, Except.pure] at h
  all_goals subst h
  all_goals simp [dictGet_dictSet_ne, (by decide : ("ckpt_name" : String) ≠ "seed"),
    (by decide : ("vae_name" : String) ≠ "seed"),
    (by decide : ("WIDTH" : String) ≠ "seed"),
    (by decide : ("HEIGHT" : String) ≠ "seed"),
    (by decide : ("UPSCALER" : String) ≠ "seed"),
    (by decide : ("width" : String) ≠ "seed"),
    (by decide : ("height" : String) ≠ "seed")]

theorem samplerSeedUpdate_class_type {nv : Params} {node n' : Node}
    (h : samplerSeedUpdate nv node = .ok n') : n'.class_type = node.class_type := by
  unfold samplerSeedUpdate at h
  split at h
  all_goals repeat' (split at h)
  all_goals simp [pure, Except.pure] at h
  all_goals subst h
  all_goals simp

theorem samplerSeedUpdate_frame {nv : Params} {node n' : Node}
    (h : samplerSeedUpdate nv node = .ok n') (k : String) (hk : k ≠ "seed") :
    dictGet n'.inputs k = dictGet node.inputs k := by
  unfold samplerSeedUpdate at h
  split at h
  all_goals repeat' (split at h)
  all_goals simp [pure, Except.pure] at h
  all_goals subst h
  all_goals simp [dictGet_dictSet_ne, Ne.symm hk]

theorem samplerSeedUpdate_seed_list {nv : Params} {node n' : Node}
    (h : samplerSeedUpdate nv node = .ok n') (xs : List PyScal)
    (hv : dictGet node.inputs "seed" = some (.list xs)) :
    dictGet n'.inputs "seed" = some (.list xs) := by
  unfold samplerSeedUpdate at h
  split at h
  · simp at h
  · split at h
    · split at h
      next sv cur hsv hcur =>
        split at h
        · simp [pure, Except.pure] at h; subst h; exact hv
        next hnl =>
          split at h
          · rw [hcur] at hv
            cases hv
            simp [isListVal] at hnl
          · simp [pure, Except.pure] at h; subst h; exact hv
      next =>
        simp [pure, Except.pure] at h; subst h; exact hv
    · simp [pure, Except.pure] at h; subst h; exact hv

/-! ## Composition: one node through the whole loop body, and the loop
over all nodes -/

theorem text_candidates_keys :
    ∀ k ∈ text_candidates,
      k ≠ "WHITELIST" ∧ k.length < 10 ∧ k ∉ classWriteKeys ∧ k ≠ "seed" := by
  decide

theorem updateNode_ok {nv : Params} {lns : List String} {lss : List PyVal}
    {p q : Bool} {node n' : Node}
    (h : updateNode nv lns lss p q node = .ok n') :
    ∃ n4, classUpdates nv (loraUpdate lns lss (roleTitleUpdates nv p q (whitelistFix node))) = .ok n4
      ∧ samplerSeedUpdate nv n4 = .ok n' := by
  unfold updateNode at h
  split at h
  · simp at h
  next n4 hc => exact ⟨n4, hc, h⟩

theorem updateNode_list_frame {nv : Params} {lns : List String} {lss : List PyVal}
    {p q : Bool} {node n' : Node}
    (h : updateNode nv lns lss p q node = .ok n') :
    (∀ k, k ∈ text_candidates → ∀ xs, dictGet node.inputs k = some (.list xs) →
        dictGet n'.inputs k = some (.list xs))
    ∧ (node.class_type ≠ some "DW_seed" → ∀ xs,
        dictGet node.inputs "seed" = some (.list xs) →
        dictGet n'.inputs "seed" = some (.list xs)) := by
  obtain ⟨n4, hc, hs⟩ := updateNode_ok h
  constructor
  · intro k hk xs hv
    obtain ⟨hWL, hLen, hCW, hSeed⟩ := text_candidates_keys k hk
    have h1 : dictGet (whitelistFix node).inputs k = some (.list xs) := by
      rw [whitelistFix_frame node k hWL]; exact hv
    have h2 : dictGet (roleTitleUpdates nv p q (whitelistFix node)).inputs k = some (.list xs) :=
      (textChain_roleTitleUpdates nv p q (whitelistFix node)).list_preserved k xs h1
    have h3 : dictGet (loraUpdate lns lss (roleTitleUpdates nv p q (whitelistFix node))).inputs k
        = some (.list xs) := by
      rw [loraUpdate_frame lns lss _ k hLen]; exact h2
    have h4 : dictGet n4.inputs k = some (.list xs) := by
      rw [classUpdates_frame hc k hCW]; exact h3
    rw [samplerSeedUpdate_frame hs k hSeed]; exact h4
  · intro hcls xs hv
    have h1 : dictGet (whitelistFix node).inputs "seed" = some (.list xs) := by
      rw [whitelistFix_frame node "seed" (by decide)]; exact hv
    have h2 : dictGet (roleTitleUpdates nv p q (whitelistFix node)).inputs "seed"
        = some (.list xs) := by
      rw [(textChain_roleTitleUpdates nv p q (whitelistFix node)).nonCandidate "seed" (by decide)]
      exact h1
    have h3 : dictGet (loraUpdate lns lss (roleTitleUpdates nv p q (whitelistFix node))).inputs "seed"
        = some (.list xs) := by
      rw [loraUpdate_frame lns lss _ "seed" (by decide)]; exact h2
    have hcls3 : (loraUpdate lns lss (roleTitleUpdates nv p q (whitelistFix node))).class_type
        ≠ some "DW_seed" := by
      rw [loraUpdate_class_type, (textChain_roleTitleUpdates nv p q (whitelistFix node)).class_type,
        whitelistFix_class_type]
      exact hcls
    have h4 : dictGet n4.inputs "seed" = some (.list xs) := by
      rw [classUpdates_seed_frame hc hcls3]; exact h3
    exact samplerSeedUpdate_seed_list hs xs h4

theorem updateNodes_ok {nv : Params} {lns : List String} {lss : List PyVal}
    {pos neg : List String} :
    ∀ {l l' : Workflow}, updateNodes nv lns lss pos neg l = .ok l' →
      List.Forall₂ (fun p q => p.1 = q.1 ∧
        updateNode nv lns lss (decide (p.1 ∈ pos)) (decide (p.1 ∈ neg)) p.2 = .ok q.2) l l' := by
  intro l
  induction l with
  | nil =>
      intro l' h
      unfold updateNodes at h
      simp at h
      subst h
      exact List.Forall₂.nil
  | cons hd rest ih =>
      intro l' h
      obtain ⟨nid, node⟩ := hd
      unfold updateNodes at h
      split at h
      · simp at h
      next n' hn =>
        split at h
        · simp at h
        next rest' hr =>
          simp at h
          subst h
          exact List.Forall₂.cons ⟨rfl, hn⟩ (ih hr)

theorem dictGet_forall2 {α β : Type} (R : String → α → β → Prop) :
    ∀ {l : Dict α} {l' : Dict β},
      List.Forall₂ (fun p q => p.1 = q.1 ∧ R p.1 p.2 q.2) l l' →
      ∀ k v, dictGet l k = some v → ∃ v', dictGet l' k = some v' ∧ R k v v' := by
  intro l l' h
  induction h with
  | nil => intro k v hv; simp [dictGet] at hv
  | @cons p q l₁ l₂ hpq _ ih =>
      intro k v hv
      obtain ⟨k1, a⟩ := p
      obtain ⟨k2, b⟩ := q
      obtain ⟨hk12, hR⟩ := hpq
      dsimp at hk12 hR
      subst hk12
      by_cases hk : k1 = k
      · subst hk
        simp [dictGet] at hv ⊢
        subst hv
        exact hR
      · simp only [dictGet, if_neg hk] at hv ⊢
        exact ih k v hv

theorem update_workflow_ok {wf : Workflow} {nv : Params} {lns : List String}
    {lss : List PyVal} {wf' : Workflow}
    (h : update_workflow wf nv lns lss = .ok wf') :
    ∀ nid node, dictGet (dictSet wf dummy_whitelist_id dummy_whitelist_node) nid = some node →
      ∃ n', dictGet wf' nid = some n' ∧
        updateNode nv lns lss
          (decide (nid ∈ positive_node_ids (dictSet wf dummy_whitelist_id dummy_whitelist_node)))
          (decide (nid ∈ negative_node_ids (dictSet wf dummy_whitelist_id dummy_whitelist_node)))
          node = .ok n' := by
  intro nid node hg
  unfold update_workflow at h
  exact dictGet_forall2
    (fun nid a b => updateNode nv lns lss
      (decide (nid ∈ positive_node_ids (dictSet wf dummy_whitelist_id dummy_whitelist_node)))
      (decide (nid ∈ negative_node_ids (dictSet wf dummy_whitelist_id dummy_whitelist_node)))
      a = .ok b)
    (updateNodes_ok h) nid node hg

/-! ## Claim C1 -/

/-- Claim C1, counterexample.  A CheckpointLoaderSimple node whose
ckpt_name input is the Reference ["5", 0] has that Reference replaced
by the Literal checkpoint name when a checkpoint parameter is supplied:
update_workflow assigns inputs["ckpt_name"] unconditionally (line 427),
with no Reference guard.  So it is not the case that every
Reference-valued field is preserved: the checkpoint field is not. -/
theorem C1_cex_checkpoint_reference_replaced :
    update_workflow
      [("3", { class_type := some "CheckpointLoaderSimple", title := Option.none,
               inputs := [("ckpt_name", PyVal.list [.str "5", .int 0])],
               widgets_values := Option.none })]
      [("checkpoint", PyVal.str "model.safetensors")] [] []
    = .ok [("3", { class_type := some "CheckpointLoaderSimple", title := Option.none,
                   inputs := [("ckpt_name", PyVal.str "model.safetensors")],
                   widgets_values := Option.none }),
           ("99999", dummy_whitelist_node)]
    ∧ PyVal.str "model.safetensors" ≠ PyVal.list [.str "5", .int 0] := by
  constructor
  · decide
  · decide

/-- Claim C1, amended: Reference preservation holds exactly for the
role/title-driven text updates and for the sampler seed update.  For
every workflow whose update succeeds, every node's text-candidate field
(text, text_g, text_l, prompt, value) that held a Reference list before
injection still holds the identical list afterwards, and so does a seed
input on any node other than a DW_seed node; the class-specific writes
(checkpoint, VAE, resolution, latent size, DW_seed seed, LoRA slots)
assign unconditionally and are exempt. -/
theorem C1_reference_preservation_scope :
    ∀ (wf : Workflow) (nv : Params) (lns : List String) (lss : List PyVal) (wf' : Workflow),
      update_workflow wf nv lns lss = .ok wf' →
      ∀ nid node, dictGet (dictSet wf dummy_whitelist_id dummy_whitelist_node) nid = some node →
        ∃ node', dictGet wf' nid = some node' ∧
          (∀ k, k ∈ text_candidates → ∀ xs, dictGet node.inputs k = some (.list xs) →
              dictGet node'.inputs k = some (.list xs))
          ∧ (node.class_type ≠ some "DW_seed" → ∀ xs,
              dictGet node.inputs "seed" = some (.list xs) →
              dictGet node'.inputs "seed" = some (.list xs)) := by
  intro wf nv lns lss wf' h nid node hg
  obtain ⟨n', hget, hupd⟩ := update_workflow_ok h nid node hg
  exact ⟨n', hget, updateNode_list_frame hupd⟩

/-- Claim C1, witness: a positive-titled text node whose text field is
the Reference ["3", 0] keeps it through a successful injection of a
prompt. -/
theorem C1_scope_witness :
    ∃ node',
      dictGet [("7", { class_type := some "CLIPTextEncode", title := some "Positive Prompt",
                       inputs := [("text", PyVal.list [.str "3", .int 0])],
                       widgets_values := Option.none }),
               ("99999", dummy_whitelist_node)] "7" = some node' ∧
      dictGet node'.inputs "text" = some (PyVal.list [.str "3", .int 0]) := by
  obtain ⟨node', hget, hpres, hseed⟩ :=
    C1_reference_preservation_scope
      [("7", { class_type := some "CLIPTextEncode", title := some "Positive Prompt",
               inputs := [("text", PyVal.list [.str "3", .int 0])],
               widgets_values := Option.none })]
      [("prompt", PyVal.str "cat")] [] []
      [("7", { class_type := some "CLIPTextEncode", title := some "Positive Prompt",
               inputs := [("text", PyVal.list [.str "3", .int 0])],
               widgets_values := Option.none }),
       ("99999", dummy_whitelist_node)]
      (by decide) "7"
      { class_type := some "CLIPTextEncode", title := some "Positive Prompt",
        inputs := [("text", PyVal.list [.str "3", .int 0])],
        widgets_values := Option.none }
      (by decide)
  exact ⟨node', hget, hpres "text" (by decide) _ (by decide)⟩


/-! ## Claims C7 and C3: backend selection -/

theorem sortedByLoad_head {l : List (String × Nat)} {best : String × Nat}
    {tail : List (String × Nat)}
    (h : List.insertionSort byLoad l = best :: tail) :
    best ∈ l ∧ ∀ x ∈ l, best.2 ≤ x.2 := by
  have hperm := List.perm_insertionSort byLoad l
  have hsorted := List.sorted_insertionSort byLoad l
  rw [h] at hperm hsorted
  constructor
  · exact hperm.mem_iff.mp (List.mem_cons_self best tail)
  · intro x hx
    have hx' : x ∈ best :: tail := hperm.mem_iff.mpr hx
    rcases List.mem_cons.mp hx' with he | ht
    · rw [he]
    · exact List.rel_of_sorted_cons hsorted x ht

/-- Claim C7, counterexample.  With no registered backends,
get_active_comfyui_address does not raise a ConfigurationError (no such
error exists anywhere in the code base): it returns the hardcoded
default address 127.0.0.1:8188 (line 57). -/
theorem C7_cex_default_address :
    get_active_comfyui_address [] = "127.0.0.1:8188" := by decide

/-- Claim C7, amended: when no backends are registered, backend
selection returns the hardcoded default address "127.0.0.1:8188"
instead of raising. -/
theorem C7_no_backends_default :
    ∀ configs : List BackendProbe, configs.length = 0 →
      get_active_comfyui_address configs = "127.0.0.1:8188" := by
  intro configs h
  rw [List.length_eq_zero.mp h]
  decide

/-- Claim C7, witness. -/
theorem C7_no_backends_default_witness :
    get_active_comfyui_address [] = "127.0.0.1:8188" :=
  C7_no_backends_default [] rfl

/-- Claim C3: the load-balancing selector.  With a single active
backend its (slash-stripped) address is returned whatever its probe
would say; with two or more backends, if every probe failed the first
registered backend's address is returned without raising, and if some
probe scored below the failure penalty 9999 the returned address is
that of a backend of minimal load, where check_gpu_load scores a
200-response as running+pending and every failed probe as 9999.  The
two concrete scenarios of the claim are included: loads [5, 0, timeout]
select the load-0 backend, and all-timeout selects the first. -/
theorem C3_backend_selection :
    (∀ c : BackendProbe, get_active_comfyui_address [c] = rstripSlash c.base_url)
    ∧ (∀ (c0 c1 : BackendProbe) (rest : List BackendProbe),
        (∀ c ∈ c0 :: c1 :: rest, c.queue = Option.none) →
        get_active_comfyui_address (c0 :: c1 :: rest) = rstripSlash c0.base_url)
    ∧ (∀ (c0 c1 : BackendProbe) (rest : List BackendProbe),
        (∃ c ∈ c0 :: c1 :: rest, (check_gpu_load c).2 < 9999) →
        ∃ c ∈ c0 :: c1 :: rest,
          get_active_comfyui_address (c0 :: c1 :: rest) = (check_gpu_load c).1 ∧
          ∀ c' ∈ c0 :: c1 :: rest, (check_gpu_load c).2 ≤ (check_gpu_load c').2)
    ∧ get_active_comfyui_address
        [⟨"u1", some (5, 0)⟩, ⟨"u2", some (0, 0)⟩, ⟨"u3", Option.none⟩] = "u2"
    ∧ get_active_comfyui_address [⟨"u1", Option.none⟩, ⟨"u2", Option.none⟩] = "u1" := by
  refine ⟨fun c => rfl, ?_, ?_, by decide, by decide⟩
  · intro c0 c1 rest hall
    have hred : get_active_comfyui_address (c0 :: c1 :: rest)
        = (match List.insertionSort byLoad ((c0 :: c1 :: rest).map check_gpu_load) with
           | [] => "127.0.0.1:8188"
           | (best_address, load) :: _ =>
              if load = 9999 then rstripSlash c0.base_url else best_address) := rfl
    rw [hred]
    split
    next heq =>
      have hperm := List.perm_insertionSort byLoad ((c0 :: c1 :: rest).map check_gpu_load)
      rw [heq] at hperm
      have hlen := hperm.symm.length_eq
      simp at hlen
    next best_address load tail heq =>
      have hmem := (sortedByLoad_head heq).1
      obtain ⟨c, hc, hcl⟩ := List.mem_map.mp hmem
      have h9 : (check_gpu_load c).2 = 9999 := by
        unfold check_gpu_load
        rw [hall c hc]
      rw [hcl] at h9
      simp only at h9
      simp [h9]
  · intro c0 c1 rest hex
    obtain ⟨cw, hcw, hcwlt⟩ := hex
    have hred : get_active_comfyui_address (c0 :: c1 :: rest)
        = (match List.insertionSort byLoad ((c0 :: c1 :: rest).map check_gpu_load) with
           | [] => "127.0.0.1:8188"
           | (best_address, load) :: _ =>
              if load = 9999 then rstripSlash c0.base_url else best_address) := rfl
    rw [hred]
    split
    next heq =>
      have hperm := List.perm_insertionSort byLoad ((c0 :: c1 :: rest).map check_gpu_load)
      rw [heq] at hperm
      have hlen := hperm.symm.length_eq
      simp at hlen
    next best_address load tail heq =>
      obtain ⟨hmem, hmin⟩ := sortedByLoad_head heq
      obtain ⟨c, hc, hcl⟩ := List.mem_map.mp hmem
      refine ⟨c, hc, ?_, ?_⟩
      · have hlt : load < 9999 := by
          have h1 := hmin (check_gpu_load cw) (List.mem_map_of_mem check_gpu_load hcw)
          have h2 : (best_address, load).2 ≤ (check_gpu_load cw).2 := h1
          simp only at h2
          omega
        have : ¬ (load = 9999) := by omega
        simp only [this, if_false, ite_false]
        rw [hcl]
      · intro c' hc'
        have h1 := hmin (check_gpu_load c') (List.mem_map_of_mem check_gpu_load hc')
        rw [hcl]
        exact h1

/-- Claim C3, witness: the general clauses applied at concrete
backends. -/
theorem C3_backend_selection_witness :
    get_active_comfyui_address [⟨"single/", some (3, 4)⟩] = "single"
    ∧ get_active_comfyui_address [⟨"a", Option.none⟩, ⟨"b", Option.none⟩] = "a"
    ∧ ∃ c ∈ [(⟨"a", some (5, 0)⟩ : BackendProbe), ⟨"b", some (0, 0)⟩, ⟨"c", Option.none⟩],
        get_active_comfyui_address
          [⟨"a", some (5, 0)⟩, ⟨"b", some (0, 0)⟩, ⟨"c", Option.none⟩] = (check_gpu_load c).1 ∧
        ∀ c' ∈ [(⟨"a", some (5, 0)⟩ : BackendProbe), ⟨"b", some (0, 0)⟩, ⟨"c", Option.none⟩],
          (check_gpu_load c).2 ≤ (check_gpu_load c').2 := by
  refine ⟨?_, ?_, ?_⟩
  · rw [C3_backend_selection.1 ⟨"single/", some (3, 4)⟩]
    decide
  · exact C3_backend_selection.2.1 ⟨"a", Option.none⟩ ⟨"b", Option.none⟩ [] (by decide)
  · exact C3_backend_selection.2.2.1 ⟨"a", some (5, 0)⟩ ⟨"b", some (0, 0)⟩ [⟨"c", Option.none⟩]
      ⟨⟨"b", some (0, 0)⟩, by decide, by decide⟩



/-! ## Claims C2 and C4: the orchestration tail -/

/-- Claim C2, counterexample.  A stream delivering an execution_error
before the completion event does not force a failure: the loop merely
prints the diagnostic (line 863) and keeps reading; after the
completion event the orchestration fetches the history and returns the
downloaded image as a success. -/
theorem C2_cex_error_event_still_ok :
    orchestrate
      { queue_result := Except.ok "pid",
        stream := [WsEvent.execution_error "node failed", WsEvent.executing Option.none],
        history := some [("3", [{ filename := "f.png", subfolder := "", ftype := "output" }])],
        fetch := fun _ => some "IMG" }
      ["Gen_Normal"]
    = .ok [("IMG", "Gen_Normal")]
    ∧ consume_stream [WsEvent.execution_error "node failed", WsEvent.executing Option.none]
      = ["node failed"] := by
  exact ⟨rfl, rfl⟩

/-- Claim C2, amended: an execution_error event is logged and otherwise
ignored.  Removing it from the stream changes nothing about the
outcome, its diagnostic is the only trace it leaves, and whenever the
submit succeeded and the history holds the prompt id, the orchestration
returns a success (the collected images) no matter what the stream
carried. -/
theorem C2_execution_error_swallowed :
    ∀ (net : RunData) (d : String) (rest : List WsEvent) (ats : List String),
      net.stream = WsEvent.execution_error d :: rest →
      (orchestrate net ats = orchestrate { net with stream := rest } ats)
      ∧ consume_stream net.stream = d :: consume_stream rest
      ∧ (∀ pid outs, net.queue_result = .ok pid → net.history = some outs →
          orchestrate net ats = .ok (collect_images net.fetch (target_tag ats) outs)) := by
  intro net d rest ats hs
  refine ⟨rfl, by rw [hs]; rfl, ?_⟩
  intro pid outs hq hh
  unfold orchestrate
  rw [hq, hh]
  rfl

/-- Claim C2, witness. -/
theorem C2_execution_error_swallowed_witness :
    (orchestrate
        { queue_result := Except.ok "pid",
          stream := [WsEvent.execution_error "boom", WsEvent.executing Option.none],
          history := some [], fetch := fun _ => Option.none }
        []
      = orchestrate
        { queue_result := Except.ok "pid",
          stream := [WsEvent.executing Option.none],
          history := some [], fetch := fun _ => Option.none }
        [])
    ∧ consume_stream [WsEvent.execution_error "boom", WsEvent.executing Option.none]
      = "boom" :: consume_stream [WsEvent.executing Option.none]
    ∧ (∀ pid outs,
        (Except.ok "pid" : Except String String) = .ok pid →
        (some [] : Option (Dict (List ImageRef))) = some outs →
        orchestrate
          { queue_result := Except.ok "pid",
            stream := [WsEvent.execution_error "boom", WsEvent.executing Option.none],
            history := some [], fetch := fun _ => Option.none }
          []
        = .ok (collect_images (fun _ => Option.none) (target_tag []) outs)) := by
  have h := C2_execution_error_swallowed
    { queue_result := Except.ok "pid",
      stream := [WsEvent.execution_error "boom", WsEvent.executing Option.none],
      history := some [], fetch := fun _ => Option.none }
    "boom" [WsEvent.executing Option.none] [] rfl
  exact ⟨h.1, h.2.1, fun pid outs hq hh => h.2.2 pid outs hq hh⟩

/-- Claim C4, counterexample.  A completed job whose manifest lists
image-bearing outputs from two nodes yields a single downloaded
artifact: the loop breaks at the first successful download (line 876),
never reaching the second entry, and it tags the artifact with the
fixed target classification (the last allowed type, line 851) rather
than inspecting the producing node's title or backtracking through the
graph. -/
theorem C4_cex_single_download_constant_tag :
    orchestrate
      { queue_result := Except.ok "pid",
        stream := [WsEvent.executing Option.none],
        history := some
          [("3", [{ filename := "a.png", subfolder := "", ftype := "output" }]),
           ("7", [{ filename := "b.png", subfolder := "", ftype := "output" }])],
        fetch := fun i => if i.filename = "a.png" then some "A" else some "B" }
      ["Gen_Normal", "Gen_UpScaler"]
    = .ok [("A", "Gen_UpScaler")] := by
  rfl

/-- Claim C4, amended: after a job completes the manifest scan
downloads at most one artifact — the first image of the first manifest
entry whose image list is non-empty and whose download succeeds — and
labels it with the fixed target classification; the producing node is
never checked against the allowed stage set and no title-keyword or
graph-backtracking classification is performed. -/
theorem C4_first_image_only :
    ∀ (fetch : ImageRef → Option String) (tag : String) (outs : Dict (List ImageRef)),
      (collect_images fetch tag outs).length ≤ 1
      ∧ ∀ p ∈ collect_images fetch tag outs, p.2 = tag ∧
          ∃ nid imgs img, (nid, imgs) ∈ outs ∧ imgs.head? = some img ∧ fetch img = some p.1 := by
  intro fetch tag outs
  induction outs with
  | nil => simp [collect_images]
  | cons hd rest ih =>
      obtain ⟨nid, imgs⟩ := hd
      cases imgs with
      | nil =>
          refine ⟨by simpa [collect_images] using ih.1, ?_⟩
          intro p hp
          have hp' : p ∈ collect_images fetch tag rest := by simpa [collect_images] using hp
          obtain ⟨ht, n2, is2, i2, hm, hh, hf⟩ := ih.2 p hp'
          exact ⟨ht, n2, is2, i2, List.mem_cons_of_mem _ hm, hh, hf⟩
      | cons img tl =>
          cases hf : fetch img with
          | some b =>
              constructor
              · simp [collect_images, hf]
              · intro p hp
                simp only [collect_images, hf, List.mem_singleton] at hp
                subst hp
                exact ⟨rfl, nid, img :: tl, img, List.mem_cons_self _ _, rfl, hf⟩
          | none =>
              constructor
              · simpa [collect_images, hf] using ih.1
              · intro p hp
                have hp' : p ∈ collect_images fetch tag rest := by
                  simpa [collect_images, hf] using hp
                obtain ⟨ht, n2, is2, i2, hm, hh, hf2⟩ := ih.2 p hp'
                exact ⟨ht, n2, is2, i2, List.mem_cons_of_mem _ hm, hh, hf2⟩

/-- Claim C4, witness: the manifest with two image-bearing entries from
the counterexample, run through the amended characterization. -/
theorem C4_first_image_only_witness :
    (collect_images (fun _ => some "A") "Gen_Normal"
        [("3", [{ filename := "a.png", subfolder := "", ftype := "output" }]),
         ("7", [{ filename := "b.png", subfolder := "", ftype := "output" }])]).length ≤ 1
    ∧ (("A", "Gen_Normal") : String × String).2 = "Gen_Normal"
    ∧ ∃ nid imgs img,
        (nid, imgs) ∈ ([("3", [{ filename := "a.png", subfolder := "", ftype := "output" }]),
          ("7", [{ filename := "b.png", subfolder := "", ftype := "output" }])] : Dict (List ImageRef))
        ∧ imgs.head? = some img ∧ (fun _ => some "A") img = some "A" := by
  have h := C4_first_image_only (fun _ => some "A") "Gen_Normal"
    [("3", [{ filename := "a.png", subfolder := "", ftype := "output" }]),
     ("7", [{ filename := "b.png", subfolder := "", ftype := "output" }])]
  have hm : (("A", "Gen_Normal") : String × String) ∈
      collect_images (fun _ => some "A") "Gen_Normal"
        [("3", [{ filename := "a.png", subfolder := "", ftype := "output" }]),
         ("7", [{ filename := "b.png", subfolder := "", ftype := "output" }])] := by
    rw [show collect_images (fun _ => some "A") "Gen_Normal"
        [("3", [{ filename := "a.png", subfolder := "", ftype := "output" }]),
         ("7", [{ filename := "b.png", subfolder := "", ftype := "output" }])]
        = [("A", "Gen_Normal")] from rfl]
    exact List.mem_singleton.mpr rfl
  obtain ⟨ht, n2, is2, i2, hmems, hh, hf⟩ := h.2 ("A", "Gen_Normal") hm
  exact ⟨h.1, ht, n2, is2, i2, hmems, hh, hf⟩



/-! ## Claim C6: find_dependencies computes the reference-reachability
closure -/

theorem dictGet_mem {α : Type} : ∀ (l : Dict α) (k : String) (v : α),
    dictGet l k = some v → (k, v) ∈ l := by
  intro l
  induction l with
  | nil => intro k v h; simp [dictGet] at h
  | cons p rest ih =>
      intro k v h
      obtain ⟨k0, v0⟩ := p
      simp only [dictGet] at h
      by_cases hk : k0 = k
      · rw [if_pos hk] at h
        injection h with h
        subst hk
        subst h
        exact List.mem_cons_self _ _
      · rw [if_neg hk] at h
        exact List.mem_cons_of_mem _ (ih k v h)

theorem length_le_flatMap {α β : Type} (f : α → List β) :
    ∀ (l : List α) (p : α), p ∈ l → (f p).length ≤ (l.flatMap f).length := by
  intro l
  induction l with
  | nil => intro p hp; simp at hp
  | cons a t ih =>
      intro p hp
      rw [List.flatMap_cons, List.length_append]
      rcases List.mem_cons.mp hp with he | ht
      · subst he; omega
      · have := ih p ht; omega

theorem succs_sub_allRefs {wf : Workflow} {c x : String} (h : x ∈ succs wf c) :
    x ∈ allRefs wf := by
  unfold succs at h
  cases hg : dictGet wf c with
  | none => rw [hg] at h; simp at h
  | some node =>
      rw [hg] at h
      have hmem := dictGet_mem wf c node hg
      unfold allRefs
      exact List.mem_flatMap.mpr ⟨(c, node), hmem, h⟩

theorem succs_length_le (wf : Workflow) (c : String) :
    (succs wf c).length ≤ (allRefs wf).length := by
  unfold succs
  cases hg : dictGet wf c with
  | none => simp
  | some node =>
      exact length_le_flatMap (fun p => refTargets p.2) wf (c, node) (dictGet_mem wf c node hg)

theorem filter_length_mono {p q : String → Bool} (hpq : ∀ a, p a = true → q a = true) :
    ∀ l : List String, (l.filter p).length ≤ (l.filter q).length := by
  intro l
  induction l with
  | nil => simp
  | cons a t ih =>
      rw [List.filter_cons, List.filter_cons]
      cases hp : p a
      · cases hq : q a
        · simp [hp, hq]
          omega
        · simp [hp, hq]
          omega
      · have hq := hpq a hp
        simp [hp, hq]
        omega

theorem filter_length_lt (p q : String → Bool) (hpq : ∀ a, p a = true → q a = true)
    (c : String) (hpc : p c = false) (hqc : q c = true) :
    ∀ {l : List String}, c ∈ l → (l.filter p).length + 1 ≤ (l.filter q).length := by
  intro l
  induction l with
  | nil => intro h; simp at h
  | cons a t ih =>
      intro hcl
      rw [List.filter_cons, List.filter_cons]
      rcases List.mem_cons.mp hcl with he | ht
      · rw [← he, hpc, hqc]
        have hm := filter_length_mono hpq t
        simp
        omega
      · have hih := ih ht
        cases hp : p a
        · cases hq : q a
          · simp [hp, hq]
            omega
          · simp [hp, hq]
            omega
        · have hq := hpq a hp
          simp [hp, hq]
          omega

theorem reach_from_closed {wf : Workflow} {visited queue : List String}
    (hI : ∀ v ∈ visited, ∀ s ∈ succs wf v, s ∈ visited ∨ s ∈ queue) :
    ∀ {c x : String}, c ∈ visited → Reaches wf c x →
      x ∈ visited ∨ ∃ q ∈ queue, Reaches wf q x := by
  intro c x hc hr
  revert hc
  induction hr with
  | refl a => intro hc; exact Or.inl hc
  | step hb hr ih =>
      intro hc
      rcases hI _ hc _ hb with h1 | h2
      · exact ih h1
      · exact Or.inr ⟨_, h2, hr⟩

theorem find_deps_aux_spec (wf : Workflow) (U : List String)
    (hU : ∀ x ∈ allRefs wf, x ∈ U) :
    ∀ (fuel : Nat) (visited queue : List String),
      (∀ v ∈ visited, ∀ s ∈ succs wf v, s ∈ visited ∨ s ∈ queue) →
      (∀ y ∈ queue, y ∈ U) →
      (U.filter (fun x => decide (x ∉ visited))).length * ((allRefs wf).length + 1)
        + queue.length + 1 ≤ fuel →
      ∀ x, x ∈ find_deps_aux wf fuel visited queue ↔
        x ∈ visited ∨ ∃ q ∈ queue, Reaches wf q x := by
  intro fuel
  induction fuel with
  | zero => intro visited queue _ _ hf; omega
  | succ fuel ih =>
      intro visited queue hI hQ hf x
      cases queue with
      | nil => simp [find_deps_aux]
      | cons c queue =>
          by_cases hc : c ∈ visited
          · rw [show find_deps_aux wf (fuel + 1) visited (c :: queue)
                = find_deps_aux wf fuel visited queue from by simp [find_deps_aux, hc]]
            have hI' : ∀ v ∈ visited, ∀ s ∈ succs wf v, s ∈ visited ∨ s ∈ queue := by
              intro v hv s hs
              rcases hI v hv s hs with h1 | h2
              · exact Or.inl h1
              · rcases List.mem_cons.mp h2 with he | ht
                · exact Or.inl (he ▸ hc)
                · exact Or.inr ht
            have hf' : (U.filter (fun x => decide (x ∉ visited))).length
                * ((allRefs wf).length + 1) + queue.length + 1 ≤ fuel := by
              simp only [List.length_cons] at hf
              omega
            rw [ih visited queue hI' (fun y hy => hQ y (List.mem_cons_of_mem c hy)) hf' x]
            constructor
            · rintro (h1 | ⟨q, hq, hr⟩)
              · exact Or.inl h1
              · exact Or.inr ⟨q, List.mem_cons_of_mem c hq, hr⟩
            · rintro (h1 | ⟨q, hq, hr⟩)
              · exact Or.inl h1
              · rcases List.mem_cons.mp hq with he | ht
                · subst he
                  exact reach_from_closed hI' hc hr
                · exact Or.inr ⟨q, ht, hr⟩
          · rw [show find_deps_aux wf (fuel + 1) visited (c :: queue)
                = find_deps_aux wf fuel (visited ++ [c])
                    (queue ++ (succs wf c).filter (fun d => decide (d ∉ visited ++ [c])))
                from by simp [find_deps_aux, hc]]
            have hcmem : c ∈ visited ++ [c] :=
              List.mem_append_right _ (List.mem_singleton.mpr rfl)
            have hI2 : ∀ v ∈ visited ++ [c], ∀ s ∈ succs wf v,
                s ∈ visited ++ [c]
                ∨ s ∈ queue ++ (succs wf c).filter (fun d => decide (d ∉ visited ++ [c])) := by
              intro v hv s hs
              rcases List.mem_append.mp hv with hv1 | hv2
              · rcases hI v hv1 s hs with h1 | h2
                · exact Or.inl (List.mem_append_left _ h1)
                · rcases List.mem_cons.mp h2 with he | ht
                  · exact Or.inl (he ▸ hcmem)
                  · exact Or.inr (List.mem_append_left _ ht)
              · have hvc : v = c := List.mem_singleton.mp hv2
                rw [hvc] at hs
                by_cases hsv : s ∈ visited ++ [c]
                · exact Or.inl hsv
                · refine Or.inr (List.mem_append_right _ ?_)
                  exact List.mem_filter.mpr ⟨hs, by simpa using hsv⟩
            have hQ2 : ∀ y ∈ queue ++ (succs wf c).filter (fun d => decide (d ∉ visited ++ [c])),
                y ∈ U := by
              intro y hy
              rcases List.mem_append.mp hy with hy1 | hy2
              · exact hQ y (List.mem_cons_of_mem c hy1)
              · exact hU y (succs_sub_allRefs (List.mem_filter.mp hy2).1)
            have hf2 : (U.filter (fun x => decide (x ∉ visited ++ [c]))).length
                * ((allRefs wf).length + 1)
                + (queue ++ (succs wf c).filter (fun d => decide (d ∉ visited ++ [c]))).length
                + 1 ≤ fuel := by
              have hdec := filter_length_lt
                (fun x => decide (x ∉ visited ++ [c])) (fun x => decide (x ∉ visited))
                (by intro a ha
                    simp only [decide_eq_true_eq] at ha ⊢
                    intro hav
                    exact ha (List.mem_append_left _ hav))
                c (by simp) (by simpa using hc)
                (hQ c (List.mem_cons_self c queue))
              have hdeps : ((succs wf c).filter
                  (fun d => decide (d ∉ visited ++ [c]))).length ≤ (allRefs wf).length :=
                le_trans (List.length_filter_le _ _) (succs_length_le wf c)
              have hmul : ((U.filter (fun x => decide (x ∉ visited ++ [c]))).length + 1)
                  * ((allRefs wf).length + 1)
                  ≤ (U.filter (fun x => decide (x ∉ visited))).length
                    * ((allRefs wf).length + 1) :=
                Nat.mul_le_mul_right _ hdec
              rw [List.length_append]
              simp only [List.length_cons] at hf
              have hexp : ((U.filter (fun x => decide (x ∉ visited ++ [c]))).length + 1)
                  * ((allRefs wf).length + 1)
                  = (U.filter (fun x => decide (x ∉ visited ++ [c]))).length
                    * ((allRefs wf).length + 1) + ((allRefs wf).length + 1) := by ring
              omega
            rw [ih (visited ++ [c])
              (queue ++ (succs wf c).filter (fun d => decide (d ∉ visited ++ [c])))
              hI2 hQ2 hf2 x]
            constructor
            · rintro (h1 | ⟨q, hq, hr⟩)
              · rcases List.mem_append.mp h1 with hv1 | hv2
                · exact Or.inl hv1
                · refine Or.inr ⟨c, List.mem_cons_self c queue, ?_⟩
                  rw [List.mem_singleton.mp hv2]
                  exact Reaches.refl c
              · rcases List.mem_append.mp hq with hq1 | hq2
                · exact Or.inr ⟨q, List.mem_cons_of_mem c hq1, hr⟩
                · exact Or.inr ⟨c, List.mem_cons_self c queue,
                    Reaches.step (List.mem_filter.mp hq2).1 hr⟩
            · rintro (h1 | ⟨q, hq, hr⟩)
              · exact Or.inl (List.mem_append_left _ h1)
              · rcases List.mem_cons.mp hq with he | ht
                · rw [he] at hr
                  cases hr with
                  | refl => exact Or.inl hcmem
                  | @step _ b _ hb hr2 =>
                      by_cases hbv : b ∈ visited ++ [c]
                      · exact reach_from_closed hI2 hbv hr2
                      · exact Or.inr ⟨b, List.mem_append_right _
                          (List.mem_filter.mpr ⟨hb, by simpa using hbv⟩), hr2⟩
                · exact Or.inr ⟨q, List.mem_append_left _ ht, hr⟩

/-- The chain workflow A ← B ← C ← D of the claim's example. -/
def chainWfC6 : Workflow := [
  ("A", { class_type := some "X", title := Option.none, inputs := [],
          widgets_values := Option.none }),
  ("B", { class_type := some "X", title := Option.none,
          inputs := [("in", PyVal.list [.str "A", .int 0])], widgets_values := Option.none }),
  ("C", { class_type := some "X", title := Option.none,
          inputs := [("in", PyVal.list [.str "B", .int 0])], widgets_values := Option.none }),
  ("D", { class_type := some "X", title := Option.none,
          inputs := [("in", PyVal.list [.str "C", .int 0])], widgets_values := Option.none })]

/-- Claim C6: find_dependencies returns exactly the ids reachable from
the start node along Reference-valued inputs (two-element lists whose
first element is a node id), start node included; on the chain
A ← B ← C ← D it keeps {A,B,C,D} from D and {A,B} from B. -/
theorem C6_find_dependencies_reachability :
    (∀ (wf : Workflow) (start x : String),
        x ∈ find_dependencies wf start ↔ Reaches wf start x)
    ∧ find_dependencies chainWfC6 "D" = ["D", "C", "B", "A"]
    ∧ find_dependencies chainWfC6 "B" = ["B", "A"] := by
  refine ⟨?_, by decide, by decide⟩
  intro wf start x
  unfold find_dependencies depsFuel
  have hfilter : ((start :: allRefs wf).filter (fun x => decide (x ∉ ([] : List String))))
      = start :: allRefs wf := by simp
  have hspec := find_deps_aux_spec wf (start :: allRefs wf)
    (fun y hy => List.mem_cons_of_mem start hy)
    (((allRefs wf).length + 1) * ((allRefs wf).length + 1) + 2)
    [] [start]
    (by intro v hv; simp at hv)
    (by intro y hy; rw [List.mem_singleton.mp hy]; exact List.mem_cons_self _ _)
    (by rw [hfilter]; simp only [List.length_cons, List.length_nil]; omega)
    x
  rw [hspec]
  constructor
  · rintro (h1 | ⟨q, hq, hr⟩)
    · simp at h1
    · rwa [List.mem_singleton.mp hq] at hr
  · intro hr
    exact Or.inr ⟨start, List.mem_singleton.mpr rfl, hr⟩



/-! ## Claim C5: role classification is title-only -/

theorem mem_keys_unique {α : Type} :
    ∀ {l : Dict α}, (l.map Prod.fst).Nodup → ∀ {k : String} {v : α},
      (k, v) ∈ l → dictGet l k = some v := by
  intro l
  induction l with
  | nil => intro _ k v h; simp at h
  | cons p rest ih =>
      intro hnd k v h
      obtain ⟨k0, v0⟩ := p
      rw [List.map_cons, List.nodup_cons] at hnd
      rcases List.mem_cons.mp h with he | ht
      · injection he with he1 he2
        subst he1
        subst he2
        simp [dictGet]
      · have hk : k0 ≠ k := by
          intro heq
          subst heq
          exact hnd.1 (List.mem_map.mpr ⟨(k0, v), ht, rfl⟩)
        simp only [dictGet, if_neg hk]
        exact ih hnd.2 ht

theorem keys_dictSet_sub {α : Type} :
    ∀ (l : Dict α) (k : String) (v : α) (x : String),
      x ∈ (dictSet l k v).map Prod.fst → x ∈ l.map Prod.fst ∨ x = k := by
  intro l k v
  induction l with
  | nil => intro x hx; simp [dictSet] at hx; exact Or.inr hx
  | cons p rest ih =>
      intro x hx
      obtain ⟨k0, v0⟩ := p
      by_cases hk : k0 = k
      · simp only [dictSet, if_pos hk, List.map_cons, List.mem_cons] at hx
        rcases hx with he | ht
        · exact Or.inr he
        · exact Or.inl (List.mem_cons_of_mem _ ht)
      · simp only [dictSet, if_neg hk, List.map_cons, List.mem_cons] at hx
        rcases hx with he | ht
        · exact Or.inl (List.mem_cons.mpr (Or.inl he))
        · rcases ih x ht with h1 | h2
          · exact Or.inl (List.mem_cons_of_mem _ h1)
          · exact Or.inr h2

theorem dictSet_keys_nodup {α : Type} :
    ∀ {l : Dict α}, (l.map Prod.fst).Nodup → ∀ (k : String) (v : α),
      ((dictSet l k v).map Prod.fst).Nodup := by
  intro l
  induction l with
  | nil => intro _ k v; simp [dictSet]
  | cons p rest ih =>
      intro hnd k v
      obtain ⟨k0, v0⟩ := p
      rw [List.map_cons, List.nodup_cons] at hnd
      by_cases hk : k0 = k
      · simp only [dictSet, if_pos hk, List.map_cons, List.nodup_cons]
        exact ⟨hk ▸ hnd.1, hnd.2⟩
      · simp only [dictSet, if_neg hk, List.map_cons, List.nodup_cons]
        refine ⟨?_, ih hnd.2 k v⟩
        intro hx
        rcases keys_dictSet_sub rest k v k0 hx with h1 | h2
        · exact hnd.1 h1
        · exact hk h2

theorem mem_positive_ids_iff {wf : Workflow} (hnd : (wf.map Prod.fst).Nodup)
    {nid : String} {node : Node} (hg : dictGet wf nid = some node) :
    nid ∈ positive_node_ids wf ↔ pyIn "positive" (titleLower node) = true := by
  unfold positive_node_ids
  constructor
  · intro h
    obtain ⟨p, hp, hpe⟩ := List.mem_map.mp h
    obtain ⟨kp, vp⟩ := p
    obtain ⟨hpw, hpred⟩ := List.mem_filter.mp hp
    dsimp at hpe hpred
    subst hpe
    have := mem_keys_unique hnd hpw
    rw [hg] at this
    injection this with this
    rw [this]
    exact hpred
  · intro h
    exact List.mem_map.mpr ⟨(nid, node),
      List.mem_filter.mpr ⟨dictGet_mem wf nid node hg, h⟩, rfl⟩

theorem mem_negative_ids_iff {wf : Workflow} (hnd : (wf.map Prod.fst).Nodup)
    {nid : String} {node : Node} (hg : dictGet wf nid = some node) :
    nid ∈ negative_node_ids wf ↔
      (!pyIn "positive" (titleLower node) && pyIn "negative" (titleLower node)) = true := by
  unfold negative_node_ids
  constructor
  · intro h
    obtain ⟨p, hp, hpe⟩ := List.mem_map.mp h
    obtain ⟨kp, vp⟩ := p
    obtain ⟨hpw, hpred⟩ := List.mem_filter.mp hp
    dsimp at hpe hpred
    subst hpe
    have := mem_keys_unique hnd hpw
    rw [hg] at this
    injection this with this
    rw [this]
    exact hpred
  · intro h
    exact List.mem_map.mpr ⟨(nid, node),
      List.mem_filter.mpr ⟨dictGet_mem wf nid node hg, h⟩, rfl⟩

theorem roleTitleUpdates_no_title (nv : Params) (node : Node)
    (htit : strUpper (node.title.getD "") ∉
      (["BLACK_LIST_TAGS", "PROMP_DETAILERS", "NEGATIVE PROMP", "PROMP_CHARACTER",
        "PROMP_USUARIO"] : List String)) :
    roleTitleUpdates nv false false node = node := by
  simp only [List.mem_cons, List.not_mem_nil, or_false, not_or] at htit
  obtain ⟨h1, h2, h3, h4, h5⟩ := htit
  unfold roleTitleUpdates
  simp [textIfParam, h1, h2, h3, h4, h5]

theorem whitelistFix_widgets (node : Node) :
    (whitelistFix node).widgets_values = node.widgets_values := by
  unfold whitelistFix; split <;> simp

theorem loraUpdate_widgets (lns : List String) (lss : List PyVal) (node : Node) :
    (loraUpdate lns lss node).widgets_values = node.widgets_values := by
  unfold loraUpdate; split <;> simp

theorem classUpdates_widgets {nv : Params} {node n' : Node}
    (h : classUpdates nv node = .ok n') : n'.widgets_values = node.widgets_values := by
  unfold classUpdates updWidth updHeight updUpscaler at h
  split at h
  all_goals repeat' (split at h)
  all_goals simp [pure, Except.pure] at h
  all_goals subst h
  all_goals simp

theorem samplerSeedUpdate_widgets {nv : Params} {node n' : Node}
    (h : samplerSeedUpdate nv node = .ok n') : n'.widgets_values = node.widgets_values := by
  unfold samplerSeedUpdate at h
  split at h
  all_goals repeat' (split at h)
  all_goals simp [pure, Except.pure] at h
  all_goals subst h
  all_goals simp

/-- Claim C5, counterexample.  A graph with no title containing
"positive": the sampler node 2's positive input references text node 1
(titled "Prompt A", class CLIPTextEncode, holding "old"), which is
exactly the node a structural phase would collect as the positive
candidate.  Injecting prompt = "cat" succeeds but leaves node 1's text
untouched: no structural phase exists, so the role receives no
injection. -/
theorem C5_cex_no_structural_fallback :
    update_workflow
      [("1", { class_type := some "CLIPTextEncode", title := some "Prompt A",
               inputs := [("text", PyVal.str "old")], widgets_values := Option.none }),
       ("2", { class_type := some "KSampler", title := some "Sampler",
               inputs := [("positive", PyVal.list [.str "1", .int 0]), ("seed", PyVal.int 5)],
               widgets_values := Option.none })]
      [("prompt", PyVal.str "cat")] [] []
    = .ok
      [("1", { class_type := some "CLIPTextEncode", title := some "Prompt A",
               inputs := [("text", PyVal.str "old")], widgets_values := Option.none }),
       ("2", { class_type := some "KSampler", title := some "Sampler",
               inputs := [("positive", PyVal.list [.str "1", .int 0]), ("seed", PyVal.int 5)],
               widgets_values := Option.none }),
       ("99999", dummy_whitelist_node)]
    ∧ PyVal.str "old" ≠ PyVal.str "cat" := by
  exact ⟨by decide, by decide⟩

/-- Claim C5, amended: role classification is title-only.  In a graph
with unique node ids, a node whose lowercased title contains neither
"positive" nor "negative" and whose uppercased title is none of the
five special field titles receives no text injection at all: every
text-candidate input field and the widgets list are unchanged by
update_workflow.  There is no structural phase following sampler
references, so a graph without title evidence gets no prompt injection
for that role. -/
theorem C5_title_only_classification :
    ∀ (wf : Workflow) (nv : Params) (lns : List String) (lss : List PyVal) (wf' : Workflow),
      (wf.map Prod.fst).Nodup →
      update_workflow wf nv lns lss = .ok wf' →
      ∀ nid node, dictGet (dictSet wf dummy_whitelist_id dummy_whitelist_node) nid = some node →
        pyIn "positive" (titleLower node) = false →
        pyIn "negative" (titleLower node) = false →
        strUpper (node.title.getD "") ∉
          (["BLACK_LIST_TAGS", "PROMP_DETAILERS", "NEGATIVE PROMP", "PROMP_CHARACTER",
            "PROMP_USUARIO"] : List String) →
        ∃ node', dictGet wf' nid = some node' ∧
          (∀ k, k ∈ text_candidates → dictGet node'.inputs k = dictGet node.inputs k)
          ∧ node'.widgets_values = node.widgets_values := by
  intro wf nv lns lss wf' hnd h nid node hg hpos hneg htit
  have hnd1 : ((dictSet wf dummy_whitelist_id dummy_whitelist_node).map Prod.fst).Nodup :=
    dictSet_keys_nodup hnd dummy_whitelist_id dummy_whitelist_node
  obtain ⟨n', hget, hupd⟩ := update_workflow_ok h nid node hg
  have hposf : decide (nid ∈ positive_node_ids
      (dictSet wf dummy_whitelist_id dummy_whitelist_node)) = false := by
    rw [decide_eq_false_iff_not]
    intro hmem
    rw [mem_positive_ids_iff hnd1 hg] at hmem
    rw [hpos] at hmem
    cases hmem
  have hnegf : decide (nid ∈ negative_node_ids
      (dictSet wf dummy_whitelist_id dummy_whitelist_node)) = false := by
    rw [decide_eq_false_iff_not]
    intro hmem
    rw [mem_negative_ids_iff hnd1 hg] at hmem
    rw [hneg] at hmem
    simp at hmem
  rw [hposf, hnegf] at hupd
  obtain ⟨n4, hc, hs⟩ := updateNode_ok hupd
  have htit1 : strUpper ((whitelistFix node).title.getD "") ∉
      (["BLACK_LIST_TAGS", "PROMP_DETAILERS", "NEGATIVE PROMP", "PROMP_CHARACTER",
        "PROMP_USUARIO"] : List String) := by
    rw [whitelistFix_title]
    exact htit
  rw [roleTitleUpdates_no_title nv (whitelistFix node) htit1] at hc
  refine ⟨n', hget, ?_, ?_⟩
  · intro k hk
    obtain ⟨hWL, hLen, hCW, hSeed⟩ := text_candidates_keys k hk
    rw [samplerSeedUpdate_frame hs k hSeed, classUpdates_frame hc k hCW,
      loraUpdate_frame lns lss _ k hLen, whitelistFix_frame node k hWL]
  · rw [samplerSeedUpdate_widgets hs, classUpdates_widgets hc,
      loraUpdate_widgets lns lss _, whitelistFix_widgets node]

/-- Claim C5, witness: the counterexample graph run through the amended
theorem at node 1. -/
theorem C5_title_only_witness :
    ∃ node',
      dictGet
        [("1", { class_type := some "CLIPTextEncode", title := some "Prompt A",
                 inputs := [("text", PyVal.str "old")], widgets_values := Option.none }),
         ("2", { class_type := some "KSampler", title := some "Sampler",
                 inputs := [("positive", PyVal.list [.str "1", .int 0]), ("seed", PyVal.int 5)],
                 widgets_values := Option.none }),
         ("99999", dummy_whitelist_node)] "1" = some node' ∧
      dictGet node'.inputs "text" = some (PyVal.str "old") := by
  obtain ⟨node', hget, hcand, hwid⟩ :=
    C5_title_only_classification
      [("1", { class_type := some "CLIPTextEncode", title := some "Prompt A",
               inputs := [("text", PyVal.str "old")], widgets_values := Option.none }),
       ("2", { class_type := some "KSampler", title := some "Sampler",
               inputs := [("positive", PyVal.list [.str "1", .int 0]), ("seed", PyVal.int 5)],
               widgets_values := Option.none })]
      [("prompt", PyVal.str "cat")] [] []
      [("1", { class_type := some "CLIPTextEncode", title := some "Prompt A",
               inputs := [("text", PyVal.str "old")], widgets_values := Option.none }),
       ("2", { class_type := some "KSampler", title := some "Sampler",
               inputs := [("positive", PyVal.list [.str "1", .int 0]), ("seed", PyVal.int 5)],
               widgets_values := Option.none }),
       ("99999", dummy_whitelist_node)]
      (by decide) (by decide) "1"
      { class_type := some "CLIPTextEncode", title := some "Prompt A",
        inputs := [("text", PyVal.str "old")], widgets_values := Option.none }
      (by decide) (by decide) (by decide) (by decide)
  refine ⟨node', hget, ?_⟩
  rw [hcand "text" (by decide)]
  decide



/-! ## Claim C8: numeric coercion semantics -/

theorem updateNode_eq_of_class {nv : Params} {lns : List String} {lss : List PyVal}
    {p q : Bool} {node n4 : Node}
    (hc : classUpdates nv (loraUpdate lns lss (roleTitleUpdates nv p q (whitelistFix node)))
      = .ok n4) :
    updateNode nv lns lss p q node = samplerSeedUpdate nv n4 := by
  unfold updateNode
  rw [hc]

theorem samplerSeedUpdate_not_sampler (nv : Params) {node : Node} {ct : String}
    (h : node.class_type = some ct) (hs : pyIn "sampler" (strLower ct) = false) :
    samplerSeedUpdate nv node = .ok node := by
  unfold samplerSeedUpdate
  rw [h]
  simp [hs, pure, Except.pure]

theorem samplerSeedUpdate_sampler (nv : Params) {node : Node} {ct : String}
    (h : node.class_type = some ct) (hs : pyIn "sampler" (strLower ct) = true) :
    samplerSeedUpdate nv node
      = .ok (match dictGet nv "seed", dictGet node.inputs "seed" with
          | some sv, some cur =>
              if isListVal cur then node
              else
                (match pyToInt sv with
                 | some s => { node with inputs := dictSet node.inputs "seed" (.int s) }
                 | Option.none => node)
          | _, _ => node) := by
  unfold samplerSeedUpdate
  rw [h]
  simp [hs, pure, Except.pure]

theorem classUpdates_other (nv : Params) {node : Node} {ct : String}
    (h : node.class_type = some ct)
    (h1 : ct ≠ "CheckpointLoaderSimple") (h2 : ct ≠ "VAELoader")
    (h3 : ct ≠ "DW_resolution") (h4 : ct ≠ "EmptyLatentImage")
    (h5 : ct ≠ "DW_seed") :
    classUpdates nv node = .ok node := by
  unfold classUpdates
  rw [h]
  split
  · rename_i heq
    injection heq with heq
    exact absurd heq h1
  · rename_i heq
    injection heq with heq
    exact absurd heq h2
  · rename_i heq
    injection heq with heq
    exact absurd heq h3
  · rename_i heq
    injection heq with heq
    exact absurd heq h4
  · rename_i heq
    injection heq with heq
    exact absurd heq h5
  · rfl

theorem classUpdates_resolution (nv : Params) {node : Node}
    (h : node.class_type = some "DW_resolution") :
    classUpdates nv node
      = .ok { node with inputs := updUpscaler nv (updHeight nv (updWidth nv node.inputs)) } := by
  unfold classUpdates
  rw [h]
  rfl

theorem classUpdates_emptyLatent (nv : Params) {node : Node}
    (h : node.class_type = some "EmptyLatentImage") :
    classUpdates nv node
      = (match dictGet nv "width" with
         | Option.none => pure node
         | some wv =>
            match pyToInt wv with
            | Option.none => pure node
            | some wi =>
                match dictGet nv "height" with
                | Option.none => Except.error "KeyError: height"
                | some hv =>
                    match pyToInt hv with
                    | Option.none => pure node
                    | some hi =>
                        pure { node with
                          inputs := dictSet (dictSet node.inputs "width" (.int wi)) "height"
                            (.int hi) }) := by
  unfold classUpdates
  rw [h]
  rfl

theorem classUpdates_dwseed (nv : Params) {node : Node}
    (h : node.class_type = some "DW_seed") :
    classUpdates nv node
      = .ok (match dictGet nv "seed" with
         | some sv =>
            (match pyToInt sv with
             | some s => { node with inputs := dictSet node.inputs "seed" (.int s) }
             | Option.none => node)
         | Option.none => node) := by
  unfold classUpdates
  rw [h]
  rfl

theorem updWidth_of_none {nv : Params} (ins : Dict PyVal)
    (h : (dictGet nv "width").bind pyToInt = Option.none) : updWidth nv ins = ins := by
  unfold updWidth
  rw [h]

theorem updWidth_of_some {nv : Params} (ins : Dict PyVal) {w : Int}
    (h : (dictGet nv "width").bind pyToInt = some w) :
    updWidth nv ins = dictSet ins "WIDTH" (.int w) := by
  unfold updWidth
  rw [h]

theorem updHeight_of_none {nv : Params} (ins : Dict PyVal)
    (h : (dictGet nv "height").bind pyToInt = Option.none) : updHeight nv ins = ins := by
  unfold updHeight
  rw [h]

theorem updHeight_of_some {nv : Params} (ins : Dict PyVal) {w : Int}
    (h : (dictGet nv "height").bind pyToInt = some w) :
    updHeight nv ins = dictSet ins "HEIGHT" (.int w) := by
  unfold updHeight
  rw [h]

theorem updUpscaler_of_none {nv : Params} (ins : Dict PyVal)
    (h : (dictGet nv "upscale_by").bind pyToFloat = Option.none) : updUpscaler nv ins = ins := by
  unfold updUpscaler
  rw [h]

theorem updUpscaler_of_some {nv : Params} (ins : Dict PyVal) {u : Rat}
    (h : (dictGet nv "upscale_by").bind pyToFloat = some u) :
    updUpscaler nv ins = dictSet ins "UPSCALER" (.float u) := by
  unfold updUpscaler
  rw [h]

theorem updHeight_frame {nv : Params} (ins : Dict PyVal) {k : String} (hk : k ≠ "HEIGHT") :
    dictGet (updHeight nv ins) k = dictGet ins k := by
  unfold updHeight
  cases h : (dictGet nv "height").bind pyToInt with
  | none => rfl
  | some w => exact dictGet_dictSet_ne ins _ (Ne.symm hk)

theorem updUpscaler_frame {nv : Params} (ins : Dict PyVal) {k : String} (hk : k ≠ "UPSCALER") :
    dictGet (updUpscaler nv ins) k = dictGet ins k := by
  unfold updUpscaler
  cases h : (dictGet nv "upscale_by").bind pyToFloat with
  | none => rfl
  | some u => exact dictGet_dictSet_ne ins _ (Ne.symm hk)

theorem updWidth_frame {nv : Params} (ins : Dict PyVal) {k : String} (hk : k ≠ "WIDTH") :
    dictGet (updWidth nv ins) k = dictGet ins k := by
  unfold updWidth
  cases h : (dictGet nv "width").bind pyToInt with
  | none => rfl
  | some w => exact dictGet_dictSet_ne ins _ (Ne.symm hk)

theorem stages_frame {nv : Params} {lns : List String} {lss : List PyVal} {p q : Bool}
    (node : Node) (k : String) (hWL : k ≠ "WHITELIST") (hCand : k ∉ text_candidates)
    (hLen : k.length < 10) :
    dictGet (loraUpdate lns lss (roleTitleUpdates nv p q (whitelistFix node))).inputs k
      = dictGet node.inputs k := by
  rw [loraUpdate_frame lns lss _ k hLen,
    (textChain_roleTitleUpdates nv p q (whitelistFix node)).nonCandidate k hCand,
    whitelistFix_frame node k hWL]

theorem stages_class_type {nv : Params} {lns : List String} {lss : List PyVal} {p q : Bool}
    (node : Node) :
    (loraUpdate lns lss (roleTitleUpdates nv p q (whitelistFix node))).class_type
      = node.class_type := by
  rw [loraUpdate_class_type, (textChain_roleTitleUpdates nv p q (whitelistFix node)).class_type,
    whitelistFix_class_type]

/-- Claim C8: numeric parameters are coerced (width/height/seed with
int(), upscale factor with float()); a failed coercion of a supplied
value leaves the targeted field unchanged and the node's update still
succeeds, at all four numeric update sites: DW_resolution
(WIDTH/HEIGHT/UPSCALER each independently), EmptyLatentImage (width
coercion failure, height coercion failure, and the both-succeed case),
DW_seed, and the guarded sampler seed write (non-list current seed). -/
theorem C8_numeric_coercion :
    ∀ (nv : Params) (lns : List String) (lss : List PyVal) (p q : Bool) (node : Node),
      (node.class_type = some "DW_resolution" →
        ∃ n', updateNode nv lns lss p q node = .ok n'
          ∧ (∀ v, dictGet nv "width" = some v → pyToInt v = Option.none →
              dictGet n'.inputs "WIDTH" = dictGet node.inputs "WIDTH")
          ∧ (∀ v w, dictGet nv "width" = some v → pyToInt v = some w →
              dictGet n'.inputs "WIDTH" = some (.int w))
          ∧ (∀ v, dictGet nv "height" = some v → pyToInt v = Option.none →
              dictGet n'.inputs "HEIGHT" = dictGet node.inputs "HEIGHT")
          ∧ (∀ v w, dictGet nv "height" = some v → pyToInt v = some w →
              dictGet n'.inputs "HEIGHT" = some (.int w))
          ∧ (∀ v, dictGet nv "upscale_by" = some v → pyToFloat v = Option.none →
              dictGet n'.inputs "UPSCALER" = dictGet node.inputs "UPSCALER")
          ∧ (∀ v u, dictGet nv "upscale_by" = some v → pyToFloat v = some u →
              dictGet n'.inputs "UPSCALER" = some (.float u)))
      ∧ (node.class_type = some "DW_seed" →
        ∃ n', updateNode nv lns lss p q node = .ok n'
          ∧ (∀ v, dictGet nv "seed" = some v → pyToInt v = Option.none →
              dictGet n'.inputs "seed" = dictGet node.inputs "seed")
          ∧ (∀ v s, dictGet nv "seed" = some v → pyToInt v = some s →
              dictGet n'.inputs "seed" = some (.int s)))
      ∧ (node.class_type = some "EmptyLatentImage" →
          (∀ v, dictGet nv "width" = some v → pyToInt v = Option.none →
            ∃ n', updateNode nv lns lss p q node = .ok n'
              ∧ dictGet n'.inputs "width" = dictGet node.inputs "width"
              ∧ dictGet n'.inputs "height" = dictGet node.inputs "height")
          ∧ (∀ v w hv, dictGet nv "width" = some v → pyToInt v = some w →
              dictGet nv "height" = some hv → pyToInt hv = Option.none →
            ∃ n', updateNode nv lns lss p q node = .ok n'
              ∧ dictGet n'.inputs "width" = dictGet node.inputs "width"
              ∧ dictGet n'.inputs "height" = dictGet node.inputs "height")
          ∧ (∀ v w hv hi, dictGet nv "width" = some v → pyToInt v = some w →
              dictGet nv "height" = some hv → pyToInt hv = some hi →
            ∃ n', updateNode nv lns lss p q node = .ok n'
              ∧ dictGet n'.inputs "width" = some (.int w)
              ∧ dictGet n'.inputs "height" = some (.int hi)))
      ∧ (∀ ct, node.class_type = some ct → pyIn "sampler" (strLower ct) = true →
          ∃ n', updateNode nv lns lss p q node = .ok n'
            ∧ (∀ v cur, dictGet nv "seed" = some v →
                dictGet node.inputs "seed" = some cur →
                isListVal cur = false → pyToInt v = Option.none →
                dictGet n'.inputs "seed" = dictGet node.inputs "seed")
            ∧ (∀ v cur s, dictGet nv "seed" = some v →
                dictGet node.inputs "seed" = some cur →
                isListVal cur = false → pyToInt v = some s →
                dictGet n'.inputs "seed" = some (.int s))) := by
  intro nv lns lss p q node
  refine ⟨?_, ?_, ?_, ?_⟩
  · intro hcls
    set n3 := loraUpdate lns lss (roleTitleUpdates nv p q (whitelistFix node)) with hn3
    have hcls3 : n3.class_type = some "DW_resolution" := by
      rw [hn3, stages_class_type]; exact hcls
    have hclsu := classUpdates_resolution nv hcls3
    have hred := updateNode_eq_of_class hclsu
    have hct : ({ n3 with inputs := updUpscaler nv (updHeight nv (updWidth nv n3.inputs)) }
        : Node).class_type = some "DW_resolution" := by simpa using hcls3
    have hss := samplerSeedUpdate_not_sampler nv hct (by decide)
    refine ⟨{ n3 with inputs := updUpscaler nv (updHeight nv (updWidth nv n3.inputs)) },
      by rw [hred, hss], ?_, ?_, ?_, ?_, ?_, ?_⟩
    · intro v hv hcoe
      have hbind : (dictGet nv "width").bind pyToInt = Option.none := by
        rw [hv]; exact hcoe
      show dictGet (updUpscaler nv (updHeight nv (updWidth nv n3.inputs))) "WIDTH" = _
      rw [updUpscaler_frame _ (by decide), updHeight_frame _ (by decide),
        updWidth_of_none _ hbind, hn3]
      exact stages_frame node "WIDTH" (by decide) (by decide) (by decide)
    · intro v w hv hcoe
      have hbind : (dictGet nv "width").bind pyToInt = some w := by
        rw [hv]; exact hcoe
      show dictGet (updUpscaler nv (updHeight nv (updWidth nv n3.inputs))) "WIDTH" = _
      rw [updUpscaler_frame _ (by decide), updHeight_frame _ (by decide),
        updWidth_of_some _ hbind]
      exact dictGet_dictSet_self _ _ _
    · intro v hv hcoe
      have hbind : (dictGet nv "height").bind pyToInt = Option.none := by
        rw [hv]; exact hcoe
      show dictGet (updUpscaler nv (updHeight nv (updWidth nv n3.inputs))) "HEIGHT" = _
      rw [updUpscaler_frame _ (by decide), updHeight_of_none _ hbind,
        updWidth_frame _ (by decide), hn3]
      exact stages_frame node "HEIGHT" (by decide) (by decide) (by decide)
    · intro v w hv hcoe
      have hbind : (dictGet nv "height").bind pyToInt = some w := by
        rw [hv]; exact hcoe
      show dictGet (updUpscaler nv (updHeight nv (updWidth nv n3.inputs))) "HEIGHT" = _
      rw [updUpscaler_frame _ (by decide), updHeight_of_some _ hbind]
      exact dictGet_dictSet_self _ _ _
    · intro v hv hcoe
      have hbind : (dictGet nv "upscale_by").bind pyToFloat = Option.none := by
        rw [hv]; exact hcoe
      show dictGet (updUpscaler nv (updHeight nv (updWidth nv n3.inputs))) "UPSCALER" = _
      rw [updUpscaler_of_none _ hbind, updHeight_frame _ (by decide),
        updWidth_frame _ (by decide), hn3]
      exact stages_frame node "UPSCALER" (by decide) (by decide) (by decide)
    · intro v u hv hcoe
      have hbind : (dictGet nv "upscale_by").bind pyToFloat = some u := by
        rw [hv]; exact hcoe
      show dictGet (updUpscaler nv (updHeight nv (updWidth nv n3.inputs))) "UPSCALER" = _
      rw [updUpscaler_of_some _ hbind]
      exact dictGet_dictSet_self _ _ _
  · intro hcls
    set n3 := loraUpdate lns lss (roleTitleUpdates nv p q (whitelistFix node)) with hn3
    have hcls3 : n3.class_type = some "DW_seed" := by
      rw [hn3, stages_class_type]; exact hcls
    cases hsv : dictGet nv "seed" with
    | none =>
        have hclsu : classUpdates nv n3 = .ok n3 := by
          rw [classUpdates_dwseed nv hcls3]
          simp [hsv]
        have hred := updateNode_eq_of_class hclsu
        have hss := samplerSeedUpdate_not_sampler nv hcls3 (by decide)
        refine ⟨n3, by rw [hred, hss], ?_, ?_⟩
        · intro v hv
          cases hv
        · intro v s hv
          cases hv
    | some sv =>
        cases hco : pyToInt sv with
        | none =>
            have hclsu : classUpdates nv n3 = .ok n3 := by
              rw [classUpdates_dwseed nv hcls3]
              simp [hsv, hco]
            have hred := updateNode_eq_of_class hclsu
            have hss := samplerSeedUpdate_not_sampler nv hcls3 (by decide)
            refine ⟨n3, by rw [hred, hss], ?_, ?_⟩
            · intro v hv hcoe
              rw [hn3]
              exact stages_frame node "seed" (by decide) (by decide) (by decide)
            · intro v s hv hcoe
              injection hv with hv
              rw [hv, hcoe] at hco
              cases hco
        | some s =>
            have hclsu : classUpdates nv n3
                = .ok { n3 with inputs := dictSet n3.inputs "seed" (.int s) } := by
              rw [classUpdates_dwseed nv hcls3]
              simp [hsv, hco]
            have hred := updateNode_eq_of_class hclsu
            have hct : ({ n3 with inputs := dictSet n3.inputs "seed" (.int s) }
                : Node).class_type = some "DW_seed" := by simpa using hcls3
            have hss := samplerSeedUpdate_not_sampler nv hct (by decide)
            refine ⟨{ n3 with inputs := dictSet n3.inputs "seed" (.int s) },
              by rw [hred, hss], ?_, ?_⟩
            · intro v hv hcoe
              injection hv with hv
              rw [hv, hcoe] at hco
              cases hco
            · intro v s2 hv hcoe
              injection hv with hv
              rw [hv, hcoe] at hco
              injection hco with hco
              show dictGet (dictSet n3.inputs "seed" (.int s)) "seed" = _
              rw [dictGet_dictSet_self, hco]
  · intro hcls
    set n3 := loraUpdate lns lss (roleTitleUpdates nv p q (whitelistFix node)) with hn3
    have hcls3 : n3.class_type = some "EmptyLatentImage" := by
      rw [hn3, stages_class_type]; exact hcls
    refine ⟨?_, ?_, ?_⟩
    · intro v hv hcoe
      have hclsu : classUpdates nv n3 = .ok n3 := by
        rw [classUpdates_emptyLatent nv hcls3]
        simp [hv, hcoe, pure, Except.pure]
      have hred := updateNode_eq_of_class hclsu
      have hss := samplerSeedUpdate_not_sampler nv hcls3 (by decide)
      refine ⟨n3, by rw [hred, hss], ?_, ?_⟩
      · rw [hn3]
        exact stages_frame node "width" (by decide) (by decide) (by decide)
      · rw [hn3]
        exact stages_frame node "height" (by decide) (by decide) (by decide)
    · intro v w hv hvw hcoew hvh hcoeh
      have hclsu : classUpdates nv n3 = .ok n3 := by
        rw [classUpdates_emptyLatent nv hcls3]
        simp [hvw, hcoew, hvh, hcoeh, pure, Except.pure]
      have hred := updateNode_eq_of_class hclsu
      have hss := samplerSeedUpdate_not_sampler nv hcls3 (by decide)
      refine ⟨n3, by rw [hred, hss], ?_, ?_⟩
      · rw [hn3]
        exact stages_frame node "width" (by decide) (by decide) (by decide)
      · rw [hn3]
        exact stages_frame node "height" (by decide) (by decide) (by decide)
    · intro v w hv hi hvw hcoew hvh hcoeh
      have hclsu : classUpdates nv n3
          = .ok { n3 with
              inputs := dictSet (dictSet n3.inputs "width" (.int w)) "height" (.int hi) } := by
        rw [classUpdates_emptyLatent nv hcls3]
        simp [hvw, hcoew, hvh, hcoeh, pure, Except.pure]
      have hred := updateNode_eq_of_class hclsu
      have hct : ({ n3 with
            inputs := dictSet (dictSet n3.inputs "width" (.int w)) "height" (.int hi) }
          : Node).class_type = some "EmptyLatentImage" := by simpa using hcls3
      have hss := samplerSeedUpdate_not_sampler nv hct (by decide)
      refine ⟨{ n3 with
          inputs := dictSet (dictSet n3.inputs "width" (.int w)) "height" (.int hi) },
        by rw [hred, hss], ?_, ?_⟩
      · show dictGet (dictSet (dictSet n3.inputs "width" (.int w)) "height" (.int hi))
          "width" = _
        rw [dictGet_dictSet_ne _ _ (by decide)]
        exact dictGet_dictSet_self _ _ _
      · exact dictGet_dictSet_self _ _ _
  · intro ct hct hsamp
    set n3 := loraUpdate lns lss (roleTitleUpdates nv p q (whitelistFix node)) with hn3
    have hcls3 : n3.class_type = some ct := by
      rw [hn3, stages_class_type]; exact hct
    have hne1 : ct ≠ "CheckpointLoaderSimple" := by
      intro he; rw [he] at hsamp; exact absurd hsamp (by decide)
    have hne2 : ct ≠ "VAELoader" := by
      intro he; rw [he] at hsamp; exact absurd hsamp (by decide)
    have hne3 : ct ≠ "DW_resolution" := by
      intro he; rw [he] at hsamp; exact absurd hsamp (by decide)
    have hne4 : ct ≠ "EmptyLatentImage" := by
      intro he; rw [he] at hsamp; exact absurd hsamp (by decide)
    have hne5 : ct ≠ "DW_seed" := by
      intro he; rw [he] at hsamp; exact absurd hsamp (by decide)
    have hclsu : classUpdates nv n3 = .ok n3 :=
      classUpdates_other nv hcls3 hne1 hne2 hne3 hne4 hne5
    have hred := updateNode_eq_of_class hclsu
    have hseedfr : dictGet n3.inputs "seed" = dictGet node.inputs "seed" := by
      rw [hn3]
      exact stages_frame node "seed" (by decide) (by decide) (by decide)
    have hssr := samplerSeedUpdate_sampler nv hcls3 hsamp
    cases hsv : dictGet nv "seed" with
    | none =>
        refine ⟨n3, by rw [hred, hssr, hsv], ?_, ?_⟩
        · intro v cur hv hcur hl hco
          exact Option.noConfusion hv
        · intro v cur s hv hcur hl hco
          exact Option.noConfusion hv
    | some sv =>
        cases hcurN : dictGet node.inputs "seed" with
        | none =>
            have hcur3 : dictGet n3.inputs "seed" = Option.none := by
              rw [hseedfr, hcurN]
            refine ⟨n3, by rw [hred, hssr, hsv, hcur3], ?_, ?_⟩
            · intro v cur hv hcur hl hco
              exact Option.noConfusion hcur
            · intro v cur s hv hcur hl hco
              exact Option.noConfusion hcur
        | some cur =>
            have hcur3 : dictGet n3.inputs "seed" = some cur := by
              rw [hseedfr, hcurN]
            cases hl : isListVal cur with
            | true =>
                refine ⟨n3, by rw [hred, hssr, hsv, hcur3]; simp [hl], ?_, ?_⟩
                · intro v cur2 hv hcur hlf hco
                  exact hcur3
                · intro v cur2 s hv hcur hlf hco
                  injection hcur with hcur
                  exact absurd hl (by rw [hcur, hlf]; decide)
            | false =>
                cases hco : pyToInt sv with
                | none =>
                    refine ⟨n3, by rw [hred, hssr, hsv, hcur3]; simp [hl, hco], ?_, ?_⟩
                    · intro v cur2 hv hcur hlf hcoe
                      exact hcur3
                    · intro v cur2 s hv hcur hlf hcoe
                      injection hv with hv
                      rw [← hv] at hcoe
                      rw [hco] at hcoe
                      cases hcoe
                | some s =>
                    refine ⟨{ n3 with inputs := dictSet n3.inputs "seed" (.int s) },
                      by rw [hred, hssr, hsv, hcur3]; simp [hl, hco], ?_, ?_⟩
                    · intro v cur2 hv hcur hlf hcoe
                      injection hv with hv
                      rw [← hv] at hcoe
                      rw [hco] at hcoe
                      cases hcoe
                    · intro v cur2 s2 hv hcur hlf hcoe
                      injection hv with hv
                      rw [← hv] at hcoe
                      rw [hco] at hcoe
                      injection hcoe with hcoe
                      show dictGet (dictSet n3.inputs "seed" (.int s)) "seed" = _
                      rw [dictGet_dictSet_self, hcoe]



/-- Claim C8, witness: a DW_resolution node with a failing width
coercion ("abc"), a succeeding height coercion ("768") and a succeeding
upscale coercion (1.5): WIDTH keeps its previous value, HEIGHT becomes
768, UPSCALER becomes 1.5, and the update succeeds. -/
theorem C8_numeric_coercion_witness :
    ∃ n', updateNode [("width", PyVal.str "abc"), ("height", PyVal.str "768"),
          ("upscale_by", PyVal.float (3 / 2))] [] []
        false false
        { class_type := some "DW_resolution", title := Option.none,
          inputs := [("WIDTH", PyVal.int 512), ("UPSCALER", PyVal.float 2)],
          widgets_values := Option.none } = .ok n'
      ∧ dictGet n'.inputs "WIDTH" = some (PyVal.int 512)
      ∧ dictGet n'.inputs "HEIGHT" = some (PyVal.int 768)
      ∧ dictGet n'.inputs "UPSCALER" = some (PyVal.float (3 / 2)) := by
  obtain ⟨n', hok, hwf, hws, hhf, hhs, huf, hus⟩ :=
    (C8_numeric_coercion [("width", PyVal.str "abc"), ("height", PyVal.str "768"),
        ("upscale_by", PyVal.float (3 / 2))] [] []
      false false
      { class_type := some "DW_resolution", title := Option.none,
        inputs := [("WIDTH", PyVal.int 512), ("UPSCALER", PyVal.float 2)],
        widgets_values := Option.none }).1 rfl
  refine ⟨n', hok, ?_, ?_, ?_⟩
  · rw [hwf (PyVal.str "abc") rfl rfl]
    rfl
  · exact hhs (PyVal.str "768") 768 rfl rfl
  · exact hus (PyVal.float (3 / 2)) (3 / 2) rfl rfl

/-! ## Claim C10: the dummy whitelist auto-fix -/

theorem updateNode_dummy (nv : Params) (lns : List String) (lss : List PyVal) :
    updateNode nv lns lss false false dummy_whitelist_node = .ok dummy_whitelist_node := by
  have h1 : whitelistFix dummy_whitelist_node = dummy_whitelist_node := by decide
  have h2 : roleTitleUpdates nv false false dummy_whitelist_node = dummy_whitelist_node :=
    roleTitleUpdates_no_title nv dummy_whitelist_node (by decide)
  have h3 : loraUpdate lns lss dummy_whitelist_node = dummy_whitelist_node := by
    unfold loraUpdate
    rw [if_neg (by decide)]
  have h4 : classUpdates nv dummy_whitelist_node = .ok dummy_whitelist_node := by
    unfold classUpdates
    rfl
  have h5 : samplerSeedUpdate nv dummy_whitelist_node = .ok dummy_whitelist_node :=
    samplerSeedUpdate_not_sampler nv
      (show dummy_whitelist_node.class_type = some "DW_Text" from rfl) (by decide)
  unfold updateNode
  rw [h1, h2, h3, h4]
  exact h5

theorem whitelistFix_sets {node : Node}
    (hcl : node.class_type = some "DW_Ultimate_Blacklist_Filter")
    (habs : dictGet node.inputs "WHITELIST" = Option.none) :
    dictGet (whitelistFix node).inputs "WHITELIST"
      = some (.list [.str "99999", .int 0]) := by
  unfold whitelistFix
  rw [if_pos ⟨hcl, by simp [dictHas, habs]⟩]
  exact dictGet_dictSet_self _ _ _

theorem whitelistFix_keeps {node : Node} {v : PyVal}
    (hpres : dictGet node.inputs "WHITELIST" = some v) :
    whitelistFix node = node := by
  unfold whitelistFix
  rw [if_neg]
  intro hand
  exact hand.2 (by simp [dictHas, hpres])

/-- Claim C10: update_workflow unconditionally installs the dummy
whitelist node under id 99999 — silently replacing any pre-existing
node with that id, even when no filter node needs it — and wires every
DW_Ultimate_Blacklist_Filter node lacking a WHITELIST input to
["99999", 0], while a filter node that already has a WHITELIST input
keeps it unchanged.  (Unique node ids assumed, as in a JSON object.) -/
theorem C10_whitelist_autofix :
    ∀ (wf : Workflow) (nv : Params) (lns : List String) (lss : List PyVal) (wf' : Workflow),
      (wf.map Prod.fst).Nodup →
      update_workflow wf nv lns lss = .ok wf' →
      dictGet wf' "99999" = some dummy_whitelist_node
      ∧ (∀ nid node,
          dictGet (dictSet wf dummy_whitelist_id dummy_whitelist_node) nid = some node →
          node.class_type = some "DW_Ultimate_Blacklist_Filter" →
          ∃ node', dictGet wf' nid = some node' ∧
            (dictGet node.inputs "WHITELIST" = Option.none →
              dictGet node'.inputs "WHITELIST" = some (.list [.str "99999", .int 0]))
            ∧ (∀ v, dictGet node.inputs "WHITELIST" = some v →
              dictGet node'.inputs "WHITELIST" = some v)) := by
  intro wf nv lns lss wf' hnd h
  have hnd1 : ((dictSet wf dummy_whitelist_id dummy_whitelist_node).map Prod.fst).Nodup :=
    dictSet_keys_nodup hnd dummy_whitelist_id dummy_whitelist_node
  constructor
  · have hg99 : dictGet (dictSet wf dummy_whitelist_id dummy_whitelist_node) "99999"
        = some dummy_whitelist_node := dictGet_dictSet_self _ _ _
    obtain ⟨n', hget, hupd⟩ := update_workflow_ok h "99999" dummy_whitelist_node hg99
    have hposf : decide ("99999" ∈ positive_node_ids
        (dictSet wf dummy_whitelist_id dummy_whitelist_node)) = false := by
      rw [decide_eq_false_iff_not]
      intro hmem
      rw [mem_positive_ids_iff hnd1 hg99] at hmem
      exact absurd hmem (by decide)
    have hnegf : decide ("99999" ∈ negative_node_ids
        (dictSet wf dummy_whitelist_id dummy_whitelist_node)) = false := by
      rw [decide_eq_false_iff_not]
      intro hmem
      rw [mem_negative_ids_iff hnd1 hg99] at hmem
      exact absurd hmem (by decide)
    rw [hposf, hnegf, updateNode_dummy nv lns lss] at hupd
    injection hupd with hupd
    rw [hget, hupd]
  · intro nid node hg hcl
    obtain ⟨n', hget, hupd⟩ := update_workflow_ok h nid node hg
    obtain ⟨n4, hc, hs⟩ := updateNode_ok hupd
    have hchain : dictGet n'.inputs "WHITELIST"
        = dictGet (whitelistFix node).inputs "WHITELIST" := by
      rw [samplerSeedUpdate_frame hs "WHITELIST" (by decide),
        classUpdates_frame hc "WHITELIST" (by decide),
        loraUpdate_frame lns lss _ "WHITELIST" (by decide),
        (textChain_roleTitleUpdates nv _ _ (whitelistFix node)).nonCandidate "WHITELIST"
          (by decide)]
    refine ⟨n', hget, ?_, ?_⟩
    · intro habs
      rw [hchain]
      exact whitelistFix_sets hcl habs
    · intro v hpres
      rw [hchain, whitelistFix_keeps hpres]
      exact hpres

/-- Claim C10, witness: a filter node without a WHITELIST input gets
wired to the injected dummy node. -/
theorem C10_whitelist_autofix_witness :
    dictGet
      [("5", { class_type := some "DW_Ultimate_Blacklist_Filter", title := Option.none,
               inputs := [("WHITELIST", PyVal.list [.str "99999", .int 0])],
               widgets_values := Option.none }),
       ("99999", dummy_whitelist_node)] "99999" = some dummy_whitelist_node
    ∧ ∃ node',
        dictGet
          [("5", { class_type := some "DW_Ultimate_Blacklist_Filter", title := Option.none,
                   inputs := [("WHITELIST", PyVal.list [.str "99999", .int 0])],
                   widgets_values := Option.none }),
           ("99999", dummy_whitelist_node)] "5" = some node' ∧
        dictGet node'.inputs "WHITELIST" = some (PyVal.list [.str "99999", .int 0]) := by
  obtain ⟨h99, hfil⟩ :=
    C10_whitelist_autofix
      [("5", { class_type := some "DW_Ultimate_Blacklist_Filter", title := Option.none,
               inputs := [], widgets_values := Option.none })]
      [] [] []
      [("5", { class_type := some "DW_Ultimate_Blacklist_Filter", title := Option.none,
               inputs := [("WHITELIST", PyVal.list [.str "99999", .int 0])],
               widgets_values := Option.none }),
       ("99999", dummy_whitelist_node)]
      (by decide) (by decide)
  obtain ⟨node', hget, hset, hkeep⟩ := hfil "5"
    { class_type := some "DW_Ultimate_Blacklist_Filter", title := Option.none,
      inputs := [], widgets_values := Option.none }
    (by decide) (by decide)
  exact ⟨h99, node', hget, hset (by decide)⟩


/-! ## Claim C9: stage-mapping soundness

Shape lemmas for the two per-sampler loop bodies, preservation of
per-stage soundness along both passes, and the concrete workflow on
which the "already classified" guard fails (the map is keyed by stage
tag, so a second eye-matching sampler evicts the first, which is then
reconsidered by the upscale pass). -/

theorem stageMaskStep_shape {wf : Workflow} {sid : String} {snode : Node}
    {m mx : StageMap} (h : stageMaskStep wf sid snode m = Except.ok mx) :
    mx = m
    ∨ (mx = dictSet m "Gen_EyeDetailer" sid ∧ EyeCore wf snode)
    ∨ (mx = dictSet m "Gen_FaceDetailer" sid ∧ FaceCore wf snode) := by
  unfold stageMaskStep at h
  repeat' (split at h)
  all_goals
    first
      | exact Except.noConfusion h
      | (injection h with h; exact Or.inl h.symm)
      | (injection h with h
         refine Or.inr (Or.inl ⟨h.symm, ?_⟩)
         exact ⟨_, _, _, _, _, by assumption, by assumption, by assumption,
           by assumption, by assumption, by assumption⟩)
      | (injection h with h
         refine Or.inr (Or.inr ⟨h.symm, ?_⟩)
         refine ⟨_, _, _, _, _, by assumption, by assumption, by assumption,
           by assumption, by assumption, ?_, by assumption⟩
         simp only [Bool.not_eq_true] at *
         assumption)

theorem stageUpscaleStep_shape {wf : Workflow} {sid : String} {snode : Node}
    {m mx : StageMap} (h : stageUpscaleStep wf sid snode m = Except.ok mx) :
    mx = m
    ∨ (mx = dictSet m "Gen_UpScaler" sid ∧
        (upscale_source wf snode.inputs "latent_image" = Except.ok true ∨
         (upscale_source wf snode.inputs "latent_image" = Except.ok false ∧
          upscale_source wf snode.inputs "image" = Except.ok true)))
    ∨ (mx = dictSet m "Gen_Normal" sid ∧
        dictHas snode.inputs "latent_image" = false ∧
        dictHas snode.inputs "image" = false) := by
  unfold stageUpscaleStep at h
  repeat' (split at h)
  all_goals
    first
      | exact Except.noConfusion h
      | (injection h with h; exact Or.inl h.symm)
      | (injection h with h
         exact Or.inr (Or.inl ⟨h.symm, Or.inl (by assumption)⟩))
      | (injection h with h
         exact Or.inr (Or.inl ⟨h.symm, Or.inr ⟨by assumption, by assumption⟩⟩))
      | (injection h with h
         refine Or.inr (Or.inr ⟨h.symm, ?_, ?_⟩)
         all_goals (simp only [Bool.not_eq_true] at *; tauto))

theorem StageSound_dictSet {wf : Workflow} {m : StageMap}
    (hS : StageSound wf m) {tag sid : String} (htag : tag ∈ stageTags)
    (h1 : tag = "Gen_EyeDetailer" → EyeRule wf sid)
    (h2 : tag = "Gen_FaceDetailer" → FaceRule wf sid)
    (h3 : tag = "Gen_UpScaler" → UpscaleRule wf sid)
    (h4 : tag = "Gen_Normal" → NormalRule wf sid) :
    StageSound wf (dictSet m tag sid) := by
  obtain ⟨e1, e2, e3, e4, ek⟩ := hS
  refine ⟨?_, ?_, ?_, ?_, ?_⟩
  · intro sid' hg
    by_cases he : tag = "Gen_EyeDetailer"
    · subst he
      rw [dictGet_dictSet_self] at hg
      injection hg with hg
      rw [← hg]
      exact h1 rfl
    · rw [dictGet_dictSet_ne m sid he] at hg
      exact e1 sid' hg
  · intro sid' hg
    by_cases he : tag = "Gen_FaceDetailer"
    · subst he
      rw [dictGet_dictSet_self] at hg
      injection hg with hg
      rw [← hg]
      exact h2 rfl
    · rw [dictGet_dictSet_ne m sid he] at hg
      exact e2 sid' hg
  · intro sid' hg
    by_cases he : tag = "Gen_UpScaler"
    · subst he
      rw [dictGet_dictSet_self] at hg
      injection hg with hg
      rw [← hg]
      exact h3 rfl
    · rw [dictGet_dictSet_ne m sid he] at hg
      exact e3 sid' hg
  · intro sid' hg
    by_cases he : tag = "Gen_Normal"
    · subst he
      rw [dictGet_dictSet_self] at hg
      injection hg with hg
      rw [← hg]
      exact h4 rfl
    · rw [dictGet_dictSet_ne m sid he] at hg
      exact e4 sid' hg
  · intro k hk
    rcases keys_dictSet_sub m tag sid k hk with hk' | hk'
    · exact ek k hk'
    · rw [hk']
      exact htag

theorem StageSound_nil (wf : Workflow) : StageSound wf ([] : StageMap) := by
  refine ⟨?_, ?_, ?_, ?_, ?_⟩ <;> intro x hx <;> simp [dictGet] at hx

theorem stagePass1_sound {wf : Workflow} :
    ∀ {l : List (String × Node)} {m mx : StageMap},
      l ⊆ sampler_nodes wf → stagePass1 wf l m = Except.ok mx →
      StageSound wf m → StageSound wf mx := by
  intro l
  induction l with
  | nil =>
      intro m mx _ h hS
      unfold stagePass1 at h
      injection h with h
      rw [← h]
      exact hS
  | cons hd rest ih =>
      intro m mx hsub h hS
      obtain ⟨sid, snode⟩ := hd
      unfold stagePass1 at h
      cases hstep : stageMaskStep wf sid snode m with
      | error e =>
          rw [hstep] at h
          exact Except.noConfusion h
      | ok m' =>
          rw [hstep] at h
          have hmem : (sid, snode) ∈ sampler_nodes wf :=
            hsub (List.mem_cons_self _ _)
          have hS' : StageSound wf m' := by
            rcases stageMaskStep_shape hstep with he | ⟨he, hc⟩ | ⟨he, hc⟩
            · rw [he]; exact hS
            · rw [he]
              exact StageSound_dictSet hS (by decide)
                (fun _ => ⟨snode, hmem, hc⟩)
                (fun hx => absurd hx (by decide))
                (fun hx => absurd hx (by decide))
                (fun hx => absurd hx (by decide))
            · rw [he]
              exact StageSound_dictSet hS (by decide)
                (fun hx => absurd hx (by decide))
                (fun _ => ⟨snode, hmem, hc⟩)
                (fun hx => absurd hx (by decide))
                (fun hx => absurd hx (by decide))
          exact ih (fun a ha => hsub (List.mem_cons_of_mem _ ha)) h hS'

theorem stagePass2_sound {wf : Workflow} :
    ∀ {l : List (String × Node)} {m mx : StageMap},
      l ⊆ sampler_nodes wf → stagePass2 wf l m = Except.ok mx →
      StageSound wf m → StageSound wf mx := by
  intro l
  induction l with
  | nil =>
      intro m mx _ h hS
      unfold stagePass2 at h
      injection h with h
      rw [← h]
      exact hS
  | cons hd rest ih =>
      intro m mx hsub h hS
      obtain ⟨sid, snode⟩ := hd
      unfold stagePass2 at h
      split at h
      · exact ih (fun a ha => hsub (List.mem_cons_of_mem _ ha)) h hS
      · cases hstep : stageUpscaleStep wf sid snode m with
        | error e =>
            rw [hstep] at h
            exact Except.noConfusion h
        | ok m' =>
            rw [hstep] at h
            have hmem : (sid, snode) ∈ sampler_nodes wf :=
              hsub (List.mem_cons_self _ _)
            have hS' : StageSound wf m' := by
              rcases stageUpscaleStep_shape hstep with he | ⟨he, hc⟩ | ⟨he, hc1, hc2⟩
              · rw [he]; exact hS
              · rw [he]
                exact StageSound_dictSet hS (by decide)
                  (fun hx => absurd hx (by decide))
                  (fun hx => absurd hx (by decide))
                  (fun _ => ⟨snode, hmem, hc⟩)
                  (fun hx => absurd hx (by decide))
              · rw [he]
                exact StageSound_dictSet hS (by decide)
                  (fun hx => absurd hx (by decide))
                  (fun hx => absurd hx (by decide))
                  (fun hx => absurd hx (by decide))
                  (fun _ => ⟨snode, hmem, hc1, hc2⟩)
            exact ih (fun a ha => hsub (List.mem_cons_of_mem _ ha)) h hS'

/-- C9 (amended): when `map_workflow_stages` succeeds, every binding of
the returned map is justified by its stage rule — Gen_EyeDetailer and
Gen_FaceDetailer by the SAM-mask prompt rules (eye checked before
face), Gen_UpScaler by a latent_image/image reference into a
Resize/Upscale node, Gen_Normal by the absence of both inputs — and no
key outside the four stage tags occurs. -/
theorem C9_stage_rule_soundness (wf : Workflow) (m : StageMap)
    (hm : map_workflow_stages wf = Except.ok m) : StageSound wf m := by
  unfold map_workflow_stages at hm
  cases h1 : stagePass1 wf (sampler_nodes wf) [] with
  | error e =>
      rw [h1] at hm
      exact Except.noConfusion hm
  | ok m1 =>
      rw [h1] at hm
      exact stagePass2_sound (fun a ha => ha) hm
        (stagePass1_sound (fun a ha => ha) h1 (StageSound_nil wf))

def c9wf : Workflow := [
  ("1", { class_type := some "SAMDetectorCombined", title := Option.none,
          inputs := [("prompt", PyVal.str "left eye")],
          widgets_values := Option.none }),
  ("2", { class_type := some "KSampler", title := Option.none,
          inputs := [("mask", PyVal.list [.str "1", .int 0]),
                     ("latent_image", PyVal.list [.str "4", .int 0])],
          widgets_values := Option.none }),
  ("4", { class_type := some "LatentUpscale", title := Option.none,
          inputs := [], widgets_values := Option.none }),
  ("5", { class_type := some "KSampler", title := Option.none,
          inputs := [("mask", PyVal.list [.str "1", .int 0])],
          widgets_values := Option.none })]

/-- C9 counterexample: in `c9wf` sampler "2" satisfies the eye rule
(its mask references SAM node "1" whose prompt contains "eye"), yet the
returned map binds Gen_EyeDetailer to the later sampler "5" and maps
"2" to Gen_UpScaler: the mask-pass classification of "2" was
overwritten (the map is keyed by stage, not by sampler) and "2" was
reconsidered by the second pass, so "first match wins / not
reconsidered" fails. -/
theorem C9_cex_eye_sampler_reassigned :
    map_workflow_stages c9wf
      = Except.ok [("Gen_EyeDetailer", "5"), ("Gen_UpScaler", "2")]
    ∧ EyeRule c9wf "2" := by
  constructor
  · decide
  · exact ⟨{ class_type := some "KSampler", title := Option.none,
             inputs := [("mask", PyVal.list [.str "1", .int 0]),
                        ("latent_image", PyVal.list [.str "4", .int 0])],
             widgets_values := Option.none },
           by decide,
           PyScal.str "1", [PyScal.int 0],
           { class_type := some "SAMDetectorCombined", title := Option.none,
             inputs := [("prompt", PyVal.str "left eye")],
             widgets_values := Option.none },
           PyVal.str "left eye", "left eye",
           by decide, by decide, by decide, by decide, by decide, by decide⟩

def c9okwf : Workflow := [
  ("3", { class_type := some "KSampler", title := Option.none,
          inputs := [("seed", PyVal.int 5)], widgets_values := Option.none })]

/-- C9 witness: on a one-sampler workflow with neither a latent_image
nor an image input the mapper returns Gen_Normal bound to that sampler,
and the soundness theorem yields the normal-stage rule for it. -/
theorem C9_stage_rule_soundness_witness :
    map_workflow_stages c9okwf = Except.ok [("Gen_Normal", "3")]
    ∧ NormalRule c9okwf "3" :=
  ⟨by decide,
   (C9_stage_rule_soundness c9okwf [("Gen_Normal", "3")] (by decide)).2.2.2.1
     "3" (by decide)⟩

end GenPor
